/-
Verification of the Sophist-tool aggregation-and-dominance pipeline.

Shallow embedding of the TypeScript sources under src/lib/pipeline/
(taxonomy.ts, classifier.ts, the aggregators and refresh classification
step in refresh.ts, dominance.ts, passage-extractor.ts, and the
post-response handling of classify-media-llm.ts) into Lean 4.

Modelling conventions:
- JS numbers are embedded as ℚ (exact rationals); the code never relies
  on float rounding for the properties checked here.
- JS strings are Lean `String`s; character-indexed text (the passage
  extractor) is embedded as `List Char` with Nat positions.
- JS `Map` (insertion-ordered, unique keys) is an association list with
  update-in-place / append-at-end semantics (`jsMapAdd`).
- `Array.prototype.sort` is stable (ES2019); it is embedded as a stable
  insertion sort (`sortAsc` / `sortDesc`), which computes the same
  output as any stable sort for a total key comparator.
- Presentation-only timestamp fields (window labels, `as_of`,
  `timestamp`) are omitted; times enter only through the `now_ms`
  parameter and `published_at_ms` (the parsed epoch of a parseable
  ISO timestamp).
- The case-insensitive regexes in the code are alternations of literal
  substrings; they are embedded as lists of literals tested by
  lowercased substring search.
-/

import Mathlib

namespace Sophist

/-! ## Generic JS-semantics helpers -/

/-- Substring test on character lists: does `t` contain `p` contiguously?
Mirrors JS `String.prototype.includes`. -/
def containsSub : List Char → List Char → Bool
  | [], p => p.isEmpty
  | c :: rest, p => p.isPrefixOf (c :: rest) || containsSub rest p

/-- First index `i ≥` the running counter at which `p` occurs in the remaining text.
Helper for `idxOfFrom`. -/
def idxOfAux (p : List Char) : List Char → Nat → Option Nat
  | [], i => if p.isEmpty then some i else none
  | c :: rest, i => if p.isPrefixOf (c :: rest) then some i else idxOfAux p rest (i + 1)

/-- JS `text.indexOf(p, pos)` on a character list: index of the first occurrence of `p`
at or after `pos`, `none` for JS's `-1`. -/
def idxOfFrom (t p : List Char) (pos : Nat) : Option Nat :=
  idxOfAux p (t.drop pos) pos

/-- ASCII lowercasing of one character, the fragment of JS `toLowerCase`
exercised by this repository's ASCII seed/trigger tables. -/
def lowerChar (c : Char) : Char :=
  if 'A' ≤ c ∧ c ≤ 'Z' then Char.ofNat (c.toNat + 32) else c

/-- Lowercase a character list. -/
def lowerL (l : List Char) : List Char := l.map lowerChar

/-- Lowercase a string into a character list. -/
def lowerS (s : String) : List Char := lowerL s.data

/-- JS whitespace test for the characters appearing in this pipeline's text. -/
def isSpaceChar (c : Char) : Bool :=
  c = ' ' || c = '\n' || c = '\t' || c = '\r'

/-- JS `String.prototype.trim` on a character list. -/
def trimL (l : List Char) : List Char :=
  ((l.dropWhile isSpaceChar).reverse.dropWhile isSpaceChar).reverse

/-- JS word character (regex `\w`). -/
def isWordChar (c : Char) : Bool :=
  ('a' ≤ c && c ≤ 'z') || ('A' ≤ c && c ≤ 'Z') || ('0' ≤ c && c ≤ '9') || c = '_'

/-- The `replace(/[^\w\s]/g, " ")` step: punctuation becomes a space. -/
def punctToSpace (c : Char) : Char :=
  if isWordChar c || isSpaceChar c then c else ' '

/-- Stable insertion into an ascending run by key; place `x` before the first
element whose key is `≥ key x` fails, i.e. keep earlier-listed elements first on ties. -/
def insertAsc {α : Type} {β : Type} [LinearOrder β] (key : α → β) (x : α) : List α → List α
  | [] => [x]
  | y :: ys => if key x ≤ key y then x :: y :: ys else y :: insertAsc key x ys

/-- Stable ascending sort by key; extensionally equal to JS stable
`sort((a, b) => key(a) - key(b))`. -/
def sortAsc {α : Type} {β : Type} [LinearOrder β] (key : α → β) : List α → List α
  | [] => []
  | x :: xs => insertAsc key x (sortAsc key xs)

/-- Stable insertion for descending runs: keep earlier-listed elements first on ties. -/
def insertDesc {α : Type} {β : Type} [LinearOrder β] (key : α → β) (x : α) : List α → List α
  | [] => [x]
  | y :: ys => if key y ≤ key x then x :: y :: ys else y :: insertDesc key x ys

/-- Stable descending sort by key; extensionally equal to JS stable
`sort((a, b) => key(b) - key(a))`. -/
def sortDesc {α : Type} {β : Type} [LinearOrder β] (key : α → β) : List α → List α
  | [] => []
  | x :: xs => insertDesc key x (sortDesc key xs)

/-- JS `Map` accumulation `m.set(k, (m.get(k) ?? 0) + v)`: update the unique existing
entry in place, else append at the end (insertion order preserved). -/
def jsMapAdd {κ : Type} [DecidableEq κ] : List (κ × ℚ) → κ → ℚ → List (κ × ℚ)
  | [], k, v => [(k, v)]
  | (k', v') :: rest, k, v =>
      if k' = k then (k', v' + v) :: rest else (k', v') :: jsMapAdd rest k v

/-- JS `Map.prototype.get` on an association list. -/
def jsMapGet {κ ν : Type} [DecidableEq κ] (m : List (κ × ν)) (k : κ) : Option ν :=
  (m.find? (fun p => decide (p.1 = k))).map (·.2)

/-- JS `Array.from(new Set(l))`: deduplicate keeping first occurrences in order. -/
def jsSetDedup {α : Type} [DecidableEq α] : List α → List α
  | [] => []
  | x :: xs => x :: (jsSetDedup xs).filter (fun y => decide (y ≠ x))

/-- JS `Math.round` (half away from zero is half up for the nonnegative shares used here). -/
def jsRound (q : ℚ) : ℤ := ⌊q + 1/2⌋

/-- JS `s || 1` on a number that is not NaN: 1 when `s` is 0, else `s`. -/
def jsOrOne (s : ℚ) : ℚ := if s = 0 then 1 else s

/-! ## Taxonomy (src/lib/pipeline/taxonomy.ts) -/

/-- The ten pipeline respect (framing) ids, in catalog order. -/
inductive PipelineRespectId where
  | security_border
  | humanitarian
  | rule_of_law
  | sovereignty_control
  | capacity_delivery
  | economy_prosperity
  | fairness_distribution
  | stability_risk
  | environment_sustainability
  | national_interest_global
deriving DecidableEq

/-- Wire string of a respect id (the TS string literal). -/
def respectIdStr : PipelineRespectId → String
  | .security_border => "security_border"
  | .humanitarian => "humanitarian"
  | .rule_of_law => "rule_of_law"
  | .sovereignty_control => "sovereignty_control"
  | .capacity_delivery => "capacity_delivery"
  | .economy_prosperity => "economy_prosperity"
  | .fairness_distribution => "fairness_distribution"
  | .stability_risk => "stability_risk"
  | .environment_sustainability => "environment_sustainability"
  | .national_interest_global => "national_interest_global"

/-- Parse a wire string back to a respect id (used to embed the
`RESPECT_IDS.includes` check of classify-media-llm.ts). -/
def parseRespectId (s : String) : Option PipelineRespectId :=
  if s = "security_border" then some .security_border
  else if s = "humanitarian" then some .humanitarian
  else if s = "rule_of_law" then some .rule_of_law
  else if s = "sovereignty_control" then some .sovereignty_control
  else if s = "capacity_delivery" then some .capacity_delivery
  else if s = "economy_prosperity" then some .economy_prosperity
  else if s = "fairness_distribution" then some .fairness_distribution
  else if s = "stability_risk" then some .stability_risk
  else if s = "environment_sustainability" then some .environment_sustainability
  else if s = "national_interest_global" then some .national_interest_global
  else none

/-- Catalog entry: id, label, judgement question, keyword seeds. -/
structure PipelineRespect where
  id : PipelineRespectId
  label : String
  judgement_question : String
  keyword_seeds : List String
deriving DecidableEq

/-- The static catalog, transcribed from PIPELINE_RESPECTS in taxonomy.ts. -/
def PIPELINE_RESPECTS : List PipelineRespect :=
  [ { id := .security_border
    , label := "Security / Border control"
    , judgement_question := "Is migration primarily a threat to be controlled?"
    , keyword_seeds :=
        ["stop", "deter", "secure", "crackdown", "illegal", "enforcement", "threat", "gangs",
         "border", "boats", "crossings", "stop the boats", "tougher measures", "deterrence",
         "intercept", "trafficker", "smuggler", "channel crossing", "border force"] }
  , { id := .humanitarian
    , label := "Humanitarian / Moral responsibility"
    , judgement_question := "Are migrants primarily vulnerable persons owed protection?"
    , keyword_seeds :=
        ["dignity", "safety", "refuge", "compassion", "harm", "rescue", "welfare", "humanity",
         "protect", "vulnerable", "safe routes", "safe passage", "deaths at sea", "drowning",
         "charity", "refugee", "asylum seeker", "human rights"] }
  , { id := .rule_of_law
    , label := "Rule of law / Legal process"
    , judgement_question := "Must migration be governed strictly by legal process and rights?"
    , keyword_seeds :=
        ["due process", "lawful", "ECHR", "HRA", "courts", "obligations", "procedures", "legal",
         "convention", "rights", "legal challenge", "judicial review", "ruling", "appeal",
         "human rights act", "court blocks", "lawful route"] }
  , { id := .sovereignty_control
    , label := "Sovereignty / Democratic control"
    , judgement_question := "Who has the authority to decide migration policy?"
    , keyword_seeds :=
        ["control", "sovereignty", "mandate", "Parliament", "external constraint",
         "take back control", "take back control", "uk border", "british border", "national border"] }
  , { id := .capacity_delivery
    , label := "Capacity / System performance"
    , judgement_question := "Is the problem state capacity and system failure?"
    , keyword_seeds :=
        ["backlog", "processing", "hotels", "inefficiency", "cost", "capacity", "system",
         "delivery", "asylum backlog", "processing delays", "hotel accommodation",
         "clearing the backlog", "casework"] }
  , { id := .economy_prosperity
    , label := "Economy / Prosperity"
    , judgement_question := "Is migration primarily an economic input/output issue?"
    , keyword_seeds :=
        ["workforce", "productivity", "skills", "growth", "pressure on services", "economy", "jobs"] }
  , { id := .fairness_distribution
    , label := "Fairness / Distribution"
    , judgement_question := "Is the issue fair treatment and distribution of resources?"
    , keyword_seeds := ["fair", "fairness", "distribution", "equity", "access", "disadvantaged"] }
  , { id := .stability_risk
    , label := "Stability / Risk"
    , judgement_question := "Is the issue stability and risk management?"
    , keyword_seeds := ["stability", "risk", "uncertainty", "volatility", "crisis"] }
  , { id := .environment_sustainability
    , label := "Environment / Sustainability"
    , judgement_question := "Is the issue environmental or sustainability impact?"
    , keyword_seeds := ["environment", "climate", "sustainability", "green"] }
  , { id := .national_interest_global
    , label := "National interest / Global"
    , judgement_question := "Is the issue national interest and global standing?"
    , keyword_seeds := ["national interest", "global", "international", "reputation", "standing"] } ]

/-- PIPELINE_RESPECT_IDS in taxonomy.ts. -/
def PIPELINE_RESPECT_IDS : List PipelineRespectId := PIPELINE_RESPECTS.map (·.id)

/-- Zero-based position of a respect in the static catalog (array index used by
catalog-order tie-breaking). -/
def catalogIndex (r : PipelineRespectId) : Nat :=
  PIPELINE_RESPECTS.findIdx (fun pr => decide (pr.id = r))

/-! ## Data model (src/lib/pipeline/types.ts) -/

/-- Outlet category. -/
inductive MediaType where
  | broadcast | broadsheet | tabloid | online | wire
deriving DecidableEq

/-- Raw media item (headline). `published_at_ms` is the parsed epoch-milliseconds of the
ISO `published_at` field; `retrieved_at` is presentation-only and omitted. -/
structure RawMediaItem where
  id : String
  outlet : String
  media_type : Option MediaType
  title : String
  lede : Option String
  url : Option String
  published_at_ms : ℚ
  respect_id : Option PipelineRespectId
deriving DecidableEq

/-- Raw poll item. -/
structure RawPollItem where
  id : String
  pollster : String
  question : String
  options : List String
  results : List ℚ
  fieldwork_dates : String
  published_at : String
  url : Option String
  sample_size : Option ℚ
deriving DecidableEq

/-- Raw metric item. -/
structure RawMetricItem where
  metric_id : String
  label : String
  unit : String
  latest_value : ℚ
  previous_value : ℚ
  period : String
  updated_at : String
  source_ref : Option String
deriving DecidableEq

/-- Item kind tag of a classified item. -/
inductive ItemType where
  | media | poll | metric
deriving DecidableEq

/-- Classifier output (timestamp omitted). -/
structure ClassifiedItem where
  item_type : ItemType
  subject_id : String
  item_id : String
  respect_id : PipelineRespectId
  confidence : ℚ
  rationale : List String
  extracted_phrases : List String
deriving DecidableEq

/-! ## Item classifier (src/lib/pipeline/classifier.ts) -/

/-- Tokenizer: lowercase, punctuation to spaces, split on whitespace, drop
tokens of length ≤ 1. -/
def tokenize (text : String) : List (List Char) :=
  (((lowerS text).map punctToSpace).splitOnP isSpaceChar).filter (fun t => t.length > 1)

/-- One respect's keyword score over a text. -/
structure ScoreEntry where
  respect_id : PipelineRespectId
  score : ℚ
  matched : List String
deriving DecidableEq

/-- One seed's contribution in the scoring loop: +1 for a token-containment match
(substring either way), +0.5 for a raw substring match on the whole text (the
double count is intentional in the source). -/
def scoreSeedStep (tokens : List (List Char)) (textLower : List Char)
    (acc : ScoreEntry) (seed : String) : ScoreEntry :=
  let seedNorm := lowerS seed
  let acc1 :=
    if tokens.any (fun t => containsSub t seedNorm || containsSub seedNorm t) then
      { acc with score := acc.score + 1, matched := acc.matched ++ [seed] }
    else acc
  if containsSub textLower seedNorm then
    { acc1 with
      score := acc1.score + 1/2
      matched := if seed ∈ acc1.matched then acc1.matched else acc1.matched ++ [seed] }
  else acc1

/-- Score a single respect's seeds over a text. -/
def scoreRespect (tokens : List (List Char)) (textLower : List Char)
    (r : PipelineRespect) : ScoreEntry :=
  r.keyword_seeds.foldl (scoreSeedStep tokens textLower)
    { respect_id := r.id, score := 0, matched := [] }

/-- scoreText: per-respect scores, keep positive ones, stable-sort descending. -/
def scoreText (text : String) : List ScoreEntry :=
  sortDesc (·.score)
    ((PIPELINE_RESPECTS.map (scoreRespect (tokenize text) (lowerS text))).filter
      (fun s => decide (s.score > 0)))

/-- normalizeConfidence: clamp(score / max(maxScore, 3), 0.3, 0.95), or 0.5 when
maxScore ≤ 0. -/
def normalizeConfidence (score maxScore : ℚ) : ℚ :=
  if maxScore ≤ 0 then 1/2
  else min (95/100) (max (3/10) (score / max maxScore 3))

/-- Text fed to the media classifier: `[title, lede].filter(Boolean).join(" ")`. -/
def mediaTextOf (item : RawMediaItem) : String :=
  String.intercalate " "
    (([item.title] ++ (match item.lede with | some l => [l] | none => [])).filter
      (fun s => decide (s ≠ "")))

/-- classifyMediaItem: top keyword score wins; default security_border at 0.5. -/
def classifyMediaItem (subject_id : String) (item : RawMediaItem) : ClassifiedItem :=
  let scored := scoreText (mediaTextOf item)
  match scored with
  | [] =>
      { item_type := .media, subject_id := subject_id, item_id := item.id
      , respect_id := .security_border, confidence := 1/2
      , rationale := ["No keyword match; default security_border"]
      , extracted_phrases := [] }
  | top :: _ =>
      { item_type := .media, subject_id := subject_id, item_id := item.id
      , respect_id := top.respect_id
      , confidence := normalizeConfidence top.score top.score
      , rationale :=
          if top.matched.length > 0 then
            ["Matched: " ++ String.intercalate ", " (top.matched.take 5)]
          else ["No keyword match; default security_border"]
      , extracted_phrases := top.matched }

/-- POLL_RESPECT_MAP in classifier.ts: each case-insensitive regex is an
alternation of the listed literals. -/
def POLL_RESPECT_MAP : List (List String × PipelineRespectId) :=
  [ (["tough", "stop", "deter", "crackdown", "reduce numbers", "boats"], .security_border)
  , (["humane", "dignity", "protect", "refugee", "safe route"], .humanitarian)
  , (["ECHR", "HRA", "legal", "court", "due process", "law"], .rule_of_law)
  , (["sovereignty", "control", "take back"], .sovereignty_control) ]

/-- Case-insensitive alternation-of-literals test, embedding `/a|b|.../i.test(text)`. -/
def patternTest (alts : List String) (text : String) : Bool :=
  alts.any (fun a => containsSub (lowerS text) (lowerS a))

/-- Text fed to the poll classifier: question followed by the options joined by spaces. -/
def pollTextOf (item : RawPollItem) : String :=
  item.question ++ " " ++ String.intercalate " " item.options

/-- classifyPollItem: first matching question-level pattern gives a fixed 0.65;
otherwise keyword scoring; default security_border at 0.5. -/
def classifyPollItem (subject_id : String) (item : RawPollItem) : ClassifiedItem :=
  let text := pollTextOf item
  match POLL_RESPECT_MAP.find? (fun pr => patternTest pr.1 text) with
  | some pr =>
      { item_type := .poll, subject_id := subject_id, item_id := item.id
      , respect_id := pr.2, confidence := 65/100
      , rationale := ["Pattern match: " ++ respectIdStr pr.2]
      , extracted_phrases := [] }
  | none =>
      match scoreText text with
      | [] =>
          { item_type := .poll, subject_id := subject_id, item_id := item.id
          , respect_id := .security_border, confidence := 1/2
          , rationale := ["Default security_border"]
          , extracted_phrases := [] }
      | top :: _ =>
          { item_type := .poll, subject_id := subject_id, item_id := item.id
          , respect_id := top.respect_id
          , confidence := normalizeConfidence top.score top.score
          , rationale :=
              if top.matched.length > 0 then
                ["Matched: " ++ String.intercalate ", " top.matched]
              else ["Default security_border"]
          , extracted_phrases := top.matched }

/-- Text fed to the metric classifier: label plus optional source ref. -/
def metricTextOf (item : RawMetricItem) : String :=
  item.label ++ " " ++ (item.source_ref.getD "")

/-- classifyMetricItem: keyword top wins at a fixed 0.7; default capacity_delivery at 0.5. -/
def classifyMetricItem (subject_id : String) (item : RawMetricItem) : ClassifiedItem :=
  match scoreText (metricTextOf item) with
  | [] =>
      { item_type := .metric, subject_id := subject_id, item_id := item.metric_id
      , respect_id := .capacity_delivery, confidence := 1/2
      , rationale := ["Metric label; default capacity"]
      , extracted_phrases := [] }
  | top :: _ =>
      { item_type := .metric, subject_id := subject_id, item_id := item.metric_id
      , respect_id := top.respect_id, confidence := 7/10
      , rationale :=
          if top.matched.length > 0 then
            ["Matched: " ++ String.intercalate ", " top.matched]
          else ["Metric label; default capacity"]
      , extracted_phrases := top.matched }

/-! ## Media aggregator (aggregators section of src/lib/pipeline/refresh.ts) -/

/-- Stopword set used by topPhrasesFromHeadlines. -/
def STOPWORDS : List String :=
  ["the", "a", "an", "and", "or", "but", "in", "on", "at", "to", "for", "of", "with", "by",
   "is", "are", "was", "were", "be", "been", "being", "have", "has", "had", "do", "does",
   "did", "will", "would", "could", "should", "may", "might", "must", "can", "new", "says"]

/-- Headline tokens for top-phrase counting: lowercase, strip punctuation, split,
drop tokens of length ≤ 2 and stopwords. -/
def phraseTokens (title : String) : List (List Char) :=
  (((lowerS title).map punctToSpace).splitOnP isSpaceChar).filter
    (fun t => decide (t.length > 2) && !(STOPWORDS.any (fun w => decide (w.data = t))))

/-- topPhrasesFromHeadlines: frequency count in first-encounter order, stable
descending sort, first `n` tokens. -/
def topPhrasesFromHeadlines (titles : List String) (n : Nat := 10) : List (List Char) :=
  let counts := titles.foldl (fun m title => (phraseTokens title).foldl (fun m t => jsMapAdd m t 1) m) []
  ((sortDesc (·.2) counts).take n).map (·.1)

/-- recencyDecay: max(0.1, 1 - daysAgo / 14). -/
def recencyDecay (daysAgo : ℚ) : ℚ := max (1/10) (1 - daysAgo / 14)

/-- OUTLET_TO_MEDIA_TYPE lookup table (keys already lowercase in the source). -/
def OUTLET_TO_MEDIA_TYPE : List (String × MediaType) :=
  [ ("bbc", .broadcast), ("sky news", .broadcast), ("sky", .broadcast)
  , ("the guardian", .broadsheet), ("guardian", .broadsheet), ("the times", .broadsheet)
  , ("times", .broadsheet), ("the telegraph", .broadsheet), ("telegraph", .broadsheet)
  , ("financial times", .broadsheet), ("the independent", .broadsheet), ("independent", .broadsheet)
  , ("daily mail", .tabloid), ("mail", .tabloid), ("the sun", .tabloid), ("sun", .tabloid)
  , ("mirror", .tabloid), ("express", .tabloid)
  , ("reuters", .wire), ("pa media", .wire), ("press association", .wire) ]

/-- Outlet lookup key: lowercase, trim, strip a leading "the" plus whitespace
(the `replace(/^the\s+/, "")` step). -/
def normalizeOutletKey (outlet : String) : List Char :=
  let s := trimL (lowerS outlet)
  if ['t', 'h', 'e'].isPrefixOf s then
    match s.drop 3 with
    | c :: rest => if isSpaceChar c then rest.dropWhile isSpaceChar else s
    | [] => s
  else s

/-- getMediaType: explicit media_type wins, else outlet table, else online. -/
def getMediaType (item : RawMediaItem) : MediaType :=
  match item.media_type with
  | some mt => mt
  | none =>
      match OUTLET_TO_MEDIA_TYPE.find? (fun p => decide (p.1.data = normalizeOutletKey item.outlet)) with
      | some p => p.2
      | none => .online

/-- A framing and its share of weight. -/
structure RespectShare where
  respect_id : PipelineRespectId
  share : ℚ
deriving DecidableEq

/-- Exemplar headline row. -/
structure MediaExemplar where
  source_id : String
  outlet : String
  title : String
  url : Option String
  published_at_ms : ℚ
  respect_id : Option PipelineRespectId
  confidence : Option ℚ
deriving DecidableEq

/-- Per-media-type share breakdown row. -/
structure MediaTypeBreakdown where
  media_type : MediaType
  n : Nat
  weight : ℚ
  shares : List RespectShare
deriving DecidableEq

/-- MediaFramingAggregate (window label and media_source tag omitted:
presentation-only strings). -/
structure MediaFramingAggregate where
  dominant : RespectShare
  shares : List RespectShare
  top_phrases : List (List Char)
  exemplars : List MediaExemplar
  source_ids : List String
  volume : Nat
  media_type_breakdown : List MediaTypeBreakdown
deriving DecidableEq

/-- Recency-and-confidence weight of one classified media item: the published
time falls back to `now` when no raw item matches. -/
def mediaWeightOf (now : ℚ) (rawMedia : List RawMediaItem) (c : ClassifiedItem) : ℚ :=
  let published :=
    match rawMedia.find? (fun m => decide (m.id = c.item_id)) with
    | some raw => raw.published_at_ms
    | none => now
  recencyDecay ((now - published) / (24 * 60 * 60 * 1000)) * c.confidence

/-- The itemWeights list accumulated by the aggregation loop, in item order. -/
def mediaItemWeights (now : ℚ) (mediaClassified : List ClassifiedItem)
    (rawMedia : List RawMediaItem) : List (String × ℚ) :=
  mediaClassified.map (fun c => (c.item_id, mediaWeightOf now rawMedia c))

/-- The byRespect weight map accumulated by the aggregation loop. -/
def mediaByRespect (now : ℚ) (mediaClassified : List ClassifiedItem)
    (rawMedia : List RawMediaItem) : List (PipelineRespectId × ℚ) :=
  mediaClassified.foldl (fun m c => jsMapAdd m c.respect_id (mediaWeightOf now rawMedia c)) []

/-- One media-type partition of the breakdown. -/
structure MTGroup where
  media_type : MediaType
  items : List RawMediaItem
  classified : List ClassifiedItem
deriving DecidableEq

/-- Insert a raw item into its media-type group (insertion-ordered, append new group). -/
def pushGroupItem : List MTGroup → MediaType → RawMediaItem → List MTGroup
  | [], mt, m => [{ media_type := mt, items := [m], classified := [] }]
  | g :: rest, mt, m =>
      if g.media_type = mt then { g with items := g.items ++ [m] } :: rest
      else g :: pushGroupItem rest mt m

/-- Insert a classified item into an existing media-type group (no-op when absent,
mirroring the optional-chained push). -/
def pushGroupClassified : List MTGroup → MediaType → ClassifiedItem → List MTGroup
  | [], _, _ => []
  | g :: rest, mt, c =>
      if g.media_type = mt then { g with classified := g.classified ++ [c] } :: rest
      else g :: pushGroupClassified rest mt c

/-- Within-partition share computation of the media-type breakdown. -/
def breakdownOfGroup (now : ℚ) (nTotal : Nat) (g : MTGroup) : MediaTypeBreakdown :=
  let typeByRespect := g.classified.foldl
    (fun m c => jsMapAdd m c.respect_id (mediaWeightOf now g.items c)) []
  let typeTotal := jsOrOne ((typeByRespect.map (·.2)).sum)
  { media_type := g.media_type
  , n := g.items.length
  , weight := if nTotal > 0 then (g.items.length : ℚ) / (nTotal : ℚ) else 0
  , shares := sortDesc (·.share)
      (typeByRespect.map (fun p => RespectShare.mk p.1 (p.2 / typeTotal))) }

/-- aggregate_media_framing. `window_days` only labels the omitted window field;
it is kept as a parameter for signature fidelity. -/
def aggregate_media_framing (now : ℚ) (subject_id : String) (classified : List ClassifiedItem)
    (rawMedia : List RawMediaItem) (window_days : ℚ := 14) : MediaFramingAggregate :=
  let mediaClassified := classified.filter (fun c => decide (c.item_type = ItemType.media))
  let byRespect := mediaByRespect now mediaClassified rawMedia
  let itemWeights := mediaItemWeights now mediaClassified rawMedia
  let total := jsOrOne ((byRespect.map (·.2)).sum)
  let shares := sortDesc (·.share) (byRespect.map (fun p => RespectShare.mk p.1 (p.2 / total)))
  let dominant := shares.headD (RespectShare.mk .security_border (1/2))
  let topPhrases := topPhrasesFromHeadlines (rawMedia.map (·.title))
  let sortedWeights := sortDesc (·.2) itemWeights
  let exemplars :=
    ((((sortedWeights.take 5).filterMap
        (fun iw => rawMedia.find? (fun x => decide (x.id = iw.1)))).take 6).map
      (fun m =>
        let c := mediaClassified.reverse.find? (fun c => decide (c.item_id = m.id))
        { source_id := m.id
        , outlet := m.outlet
        , title := m.title
        , url := m.url
        , published_at_ms := m.published_at_ms
        , respect_id := c.map (·.respect_id)
        , confidence := c.map (·.confidence) : MediaExemplar }))
  let source_ids := jsSetDedup (rawMedia.map (·.id))
  let nTotal := rawMedia.length
  let groups0 := rawMedia.foldl (fun g m => pushGroupItem g (getMediaType m) m) []
  let groups := mediaClassified.foldl
    (fun g c =>
      match rawMedia.find? (fun m => decide (m.id = c.item_id)) with
      | some raw => pushGroupClassified g (getMediaType raw) c
      | none => g)
    groups0
  let breakdown := sortDesc (fun b => b.n) (groups.map (breakdownOfGroup now nTotal))
  { dominant := dominant
  , shares := shares
  , top_phrases := topPhrases
  , exemplars := exemplars
  , source_ids := source_ids
  , volume := nTotal
  , media_type_breakdown := breakdown }

/-! ## Polling aggregator (aggregators section of src/lib/pipeline/refresh.ts) -/

/-- POLL_OPTION_TO_RESPECT: ordered option-level patterns, each a case-insensitive
alternation of literals. -/
def POLL_OPTION_TO_RESPECT : List (List String × PipelineRespectId) :=
  [ (["tough", "stop", "reduce", "control", "border", "crackdown"], .security_border)
  , (["humane", "protect", "refugee", "dignity", "safe"], .humanitarian)
  , (["legal", "law", "ECHR", "process"], .rule_of_law)
  , (["sovereignty", "take back"], .sovereignty_control) ]

/-- Accumulate a share for a respect in the option-mapping output list:
add to the existing entry (found by `out.find`) or push a new one. -/
def addShare : List RespectShare → PipelineRespectId → ℚ → List RespectShare
  | [], r, v => [RespectShare.mk r v]
  | s :: rest, r, v =>
      if s.respect_id = r then RespectShare.mk s.respect_id (s.share + v) :: rest
      else s :: addShare rest r v

/-- First pattern in POLL_OPTION_TO_RESPECT matched by an option, if any. -/
def firstOptionRespect (opt : String) : Option PipelineRespectId :=
  (POLL_OPTION_TO_RESPECT.find? (fun pr => patternTest pr.1 opt)).map (·.2)

/-- mapPollToRespectShare: per option, first matching pattern wins; options
matching nothing are skipped; a fixed security_border 0.5 entry when no
option matched at all. -/
def mapPollToRespectShare (poll : RawPollItem) : List RespectShare :=
  let out := (List.range poll.options.length).foldl
    (fun out i =>
      let opt := poll.options.getD i ""
      let pct := poll.results.getD i 0
      match firstOptionRespect opt with
      | some r => addShare out r pct
      | none => out)
    []
  if out.isEmpty then [RespectShare.mk .security_border (1/2)] else out

/-- Question-level breakdown row. -/
structure PollQuestion where
  source_id : String
  pollster : String
  fieldwork_dates : String
  question : String
  mapped_respect : PipelineRespectId
  result_pct : ℤ
  sample_size : Option ℚ
  url : Option String
  option_results : Option (List (String × ℤ))
deriving DecidableEq

/-- Supporting-poll citation row. -/
structure SupportingPoll where
  source_id : String
  pollster : String
  question : String
  fieldwork_dates : String
  published_at : String
  url : Option String
deriving DecidableEq

/-- PublicPollingAggregate (window label omitted: presentation-only string). -/
structure PublicPollingAggregate where
  public_prior : RespectShare
  shares : List RespectShare
  split_summary : String
  trend_summary : String
  supporting_polls : List SupportingPoll
  source_ids : List String
  question_level : List PollQuestion
deriving DecidableEq

/-- The byRespect confidence-weighted share map of the polling aggregator. -/
def pollingByRespect (pollClassified : List ClassifiedItem) (rawPolls : List RawPollItem) :
    List (PipelineRespectId × ℚ) :=
  pollClassified.foldl
    (fun m c =>
      match rawPolls.find? (fun p => decide (p.id = c.item_id)) with
      | none => m
      | some poll =>
          (mapPollToRespectShare poll).foldl
            (fun m s => jsMapAdd m s.respect_id (s.share * c.confidence)) m)
    []

/-- Render one share as a split-summary part. -/
def splitPart (s : RespectShare) : String :=
  toString (jsRound (s.share * 100)) ++ "% " ++
    String.mk ((respectIdStr s.respect_id).data.map (fun c => if c = '_' then ' ' else c))

/-- aggregate_public_polling. `window_months` only labels the omitted window field. -/
def aggregate_public_polling (subject_id : String) (classified : List ClassifiedItem)
    (rawPolls : List RawPollItem) (window_months : ℚ := 6) : PublicPollingAggregate :=
  let pollClassified := classified.filter (fun c => decide (c.item_type = ItemType.poll))
  let byRespect := pollingByRespect pollClassified rawPolls
  let total := jsOrOne ((byRespect.map (·.2)).sum)
  let sorted := sortDesc (·.share) (byRespect.map (fun p => RespectShare.mk p.1 (p.2 / total)))
  let public_prior := sorted.headD (RespectShare.mk .security_border (1/2))
  let splitParts := (sorted.take 2).map splitPart
  let split_summary :=
    match splitParts with
    | a :: b :: _ => a ++ " vs " ++ b
    | _ => if rawPolls.isEmpty then "No polling data in window" else "Insufficient poll data"
  let trend_summary :=
    if rawPolls.length ≥ 2 then "Based on polls in window (recency-weighted)."
    else "Insufficient data for trend."
  let supporting_polls := (rawPolls.take 10).map
    (fun p => SupportingPoll.mk p.id p.pollster p.question p.fieldwork_dates p.published_at p.url)
  let source_ids := jsSetDedup (rawPolls.map (·.id))
  let question_level := rawPolls.map
    (fun p =>
      let mapped := mapPollToRespectShare p
      let primary := (sortDesc (·.share) mapped).headD (RespectShare.mk .security_border 0)
      let option_results :=
        if p.options.length > 0 ∧ p.options.length = p.results.length then
          some (List.range p.options.length |>.map
            (fun i => (p.options.getD i "", jsRound ((p.results.getD i 0) * 100))))
        else none
      { source_id := p.id
      , pollster := p.pollster
      , fieldwork_dates := p.fieldwork_dates
      , question := p.question
      , mapped_respect := primary.respect_id
      , result_pct := jsRound (primary.share * 100)
      , sample_size := p.sample_size
      , url := p.url
      , option_results := option_results : PollQuestion })
  { public_prior := public_prior
  , shares := sorted.take 5
  , split_summary := split_summary
  , trend_summary := trend_summary
  , supporting_polls := supporting_polls
  , source_ids := source_ids
  , question_level := question_level }

/-! ## Dominance engine (src/lib/pipeline/dominance.ts) -/

/-- Fixed source weights. -/
def MEDIA_WEIGHT : ℚ := 45/100

/-- Fixed source weights. -/
def PUBLIC_WEIGHT : ℚ := 35/100

/-- Fixed source weights. -/
def INSTITUTIONAL_WEIGHT : ℚ := 2/10

/-- Curated institutional constant for a subject. -/
structure InstitutionalEntry where
  respect_id : PipelineRespectId
  note : String
  source_ids : List String
deriving DecidableEq

/-- INSTITUTIONAL_RESPECT_BY_SUBJECT: v1 table with the single small_boats entry. -/
def INSTITUTIONAL_RESPECT_BY_SUBJECT : List (String × InstitutionalEntry) :=
  [ ("small_boats",
     { respect_id := .security_border
     , note := "Legal and incumbent sources emphasise deterrence and control."
     , source_ids := ["institutional_illegal_migration_act", "institutional_home_office_strategy"] }) ]

/-- Contributor source tag. -/
inductive ContributorType where
  | media | publicOpinion | institutional
deriving DecidableEq

/-- Dominance contributor row. -/
structure DominanceContributor where
  type : ContributorType
  respect_id : PipelineRespectId
  weight : ℚ
  value_share : Option ℚ
  note : Option String
  source_ids : Option (List String)
deriving DecidableEq

/-- A framing and its composite score. -/
structure ScorePair where
  respect_id : PipelineRespectId
  score : ℚ
deriving DecidableEq

/-- Snapshot status. -/
inductive DominanceStatus where
  | proposed | validated
deriving DecidableEq

/-- DominanceSnapshot (as_of timestamp omitted). -/
structure DominanceSnapshot where
  dominant : ScorePair
  contributors : List DominanceContributor
  status : DominanceStatus
  split_dominance : Bool
  alternative : List ScorePair
deriving DecidableEq

/-- The insertion-ordered score map accumulated by weightedVote: the media
aggregate's dominant entry, then the public aggregate's prior entry, then the
institutional constant when the subject is configured. The `media.dominant &&`
and `publicAgg.public_prior &&` guards in the source always pass, since both
fields are non-optional objects. -/
def voteScores (media : MediaFramingAggregate) (publicAgg : PublicPollingAggregate)
    (subjectId : String) : List (PipelineRespectId × ℚ) :=
  let scores1 := jsMapAdd [] media.dominant.respect_id (media.dominant.share * MEDIA_WEIGHT)
  let scores2 := jsMapAdd scores1 publicAgg.public_prior.respect_id
    (publicAgg.public_prior.share * PUBLIC_WEIGHT)
  match INSTITUTIONAL_RESPECT_BY_SUBJECT.find? (fun p => decide (p.1 = subjectId)) with
  | some inst => jsMapAdd scores2 inst.2.respect_id INSTITUTIONAL_WEIGHT
  | none => scores2

/-- Contributor list accumulated by weightedVote, in push order. -/
def voteContributors (media : MediaFramingAggregate) (publicAgg : PublicPollingAggregate)
    (subjectId : String) : List DominanceContributor :=
  let base :=
    [ { type := .media, respect_id := media.dominant.respect_id, weight := MEDIA_WEIGHT
      , value_share := some media.dominant.share, note := none
      , source_ids := some (media.source_ids.take 5) : DominanceContributor }
    , { type := .publicOpinion, respect_id := publicAgg.public_prior.respect_id
      , weight := PUBLIC_WEIGHT, value_share := some publicAgg.public_prior.share
      , note := none, source_ids := some (publicAgg.source_ids.take 5) : DominanceContributor } ]
  match INSTITUTIONAL_RESPECT_BY_SUBJECT.find? (fun p => decide (p.1 = subjectId)) with
  | some inst =>
      base ++
        [ { type := .institutional, respect_id := inst.2.respect_id
          , weight := INSTITUTIONAL_WEIGHT, value_share := none
          , note := some inst.2.note, source_ids := some inst.2.source_ids : DominanceContributor } ]
  | none => base

/-- weightedVote: stable descending sort of the score map; head wins (with the
fixed security_border 0.5 default on an empty map); next three are alternatives;
split-dominance iff two or more entries and top-two gap below 0.1. -/
def weightedVote (media : MediaFramingAggregate) (publicAgg : PublicPollingAggregate)
    (subjectId : String) : DominanceSnapshot :=
  let sorted := sortDesc (·.2) (voteScores media publicAgg subjectId)
  let dominant :=
    match sorted.head? with
    | some p => ScorePair.mk p.1 p.2
    | none => ScorePair.mk .security_border (1/2)
  let alternative := ((sorted.drop 1).take 3).map (fun p => ScorePair.mk p.1 p.2)
  let split_dominance :=
    match sorted with
    | a :: b :: _ => decide (|a.2 - b.2| < 1/10)
    | _ => false
  { dominant := dominant
  , contributors := voteContributors media publicAgg subjectId
  , status := .proposed
  , split_dominance := split_dominance
  , alternative := alternative }

/-- compute_dominant_respect_now: the exported wrapper around weightedVote. -/
def compute_dominant_respect_now (subjectId : String) (mediaAgg : MediaFramingAggregate)
    (publicAgg : PublicPollingAggregate) : DominanceSnapshot :=
  weightedVote mediaAgg publicAgg subjectId

/-! ## LLM media classification (src/lib/pipeline/classify-media-llm.ts) and the
classification step of refresh_small_boats (src/lib/pipeline/refresh.ts) -/

/-- Outcome of the single batched oracle call, as observed by the JS caller:
the request throws (transport error), or yields content that `JSON.parse`
rejects, or yields parsed JSON whose optional `classifications` array maps
0-based indexes to respect-id strings. -/
inductive LLMOutcome where
  | transportThrow
  | unparseable
  | parsed (classifications : Option (List (Nat × String)))
deriving DecidableEq

/-- JS `new Map(entries)`: later entries overwrite earlier ones; lookup is
therefore the last binding of the key. -/
def jsMapOfEntries {κ ν : Type} [DecidableEq κ] (entries : List (κ × ν)) (k : κ) : Option ν :=
  (entries.reverse.find? (fun p => decide (p.1 = k))).map (·.2)

/-- classifyMediaWithLLM, from the oracle response on: `none` models the thrown
transport error propagating to the caller; an unparseable body returns the empty
list; a parsed body yields one ClassifiedItem per input item, defaulting any
missing or non-catalog (or empty-string, hence falsy) respect id to
security_border, at fixed confidence 0.8. -/
def classifyMediaWithLLM (subject_id : String) (items : List RawMediaItem)
    (outcome : LLMOutcome) : Option (List ClassifiedItem) :=
  match outcome with
  | .transportThrow => none
  | .unparseable => some []
  | .parsed classifications =>
      let entries := classifications.getD []
      some (items.enum.map (fun im =>
        let respect_id :=
          match jsMapOfEntries entries im.1 with
          | some s => (parseRespectId s).getD .security_border
          | none => .security_border
        { item_type := .media, subject_id := subject_id, item_id := im.2.id
        , respect_id := respect_id, confidence := 8/10
        , rationale := ["LLM classification"], extracted_phrases := [] }))

/-- The media-classification step of refresh_small_boats for the batch of items
without a pre-assigned framing: with an API key, try the LLM call and fall back
to the keyword classifier only when it throws; without a key, keyword-classify
directly. -/
def refreshClassifyMedia (subject_id : String) (mediaToClassify : List RawMediaItem)
    (keySet : Bool) (outcome : LLMOutcome) : List ClassifiedItem :=
  if mediaToClassify.length > 0 then
    if keySet then
      match classifyMediaWithLLM subject_id mediaToClassify outcome with
      | some llmClassified => llmClassified
      | none => mediaToClassify.map (classifyMediaItem subject_id)
    else mediaToClassify.map (classifyMediaItem subject_id)
  else []

/-! ## Passage extractor (src/lib/pipeline/passage-extractor.ts) -/

/-- Trigger-phrase table; key order and phrase order as in the source. -/
def SUBJECT_TRIGGER_PHRASES : List (String × List String) :=
  [ ("migration",
     ["migration", "immigration", "immigrate", "migrant", "migrants", "border", "borders",
      "asylum", "refugee", "refugees", "visa", "visas", "entry", "settlement", "citizenship",
      "channel crossing", "channel crossings", "small boat", "small boats", "dinghy",
      "boats crossing", "illegal migration", "legal migration", "irregular crossing",
      "english channel", "crossing the channel"])
  , ("small_boats",
     ["small boat", "small boats", "channel crossing", "channel crossings", "dinghy",
      "dinghies", "boats crossing", "english channel", "crossing the channel",
      "irregular crossing", "illegal migration", "migrant", "migrants", "asylum", "refugee"]) ]

/-- One sentence/paragraph segment with its character span in the original text
(`stop` is the exclusive end; `end` is a reserved word in Lean). -/
structure Seg where
  text : List Char
  start : Nat
  stop : Nat
deriving DecidableEq

/-- Sentence splitter: next boundary is the earlier of ". " (cut after the dot)
and a newline (cut after it); segments are trimmed, empty ones skipped. The fuel
argument bounds the loop; positions advance by at least one per step so
`length + 1` fuel is never exhausted. -/
def getSentencesAux (text : List Char) : Nat → Nat → List Seg
  | _, 0 => []
  | pos, fuel + 1 =>
    if pos < text.length then
      let nextPeriod := idxOfFrom text ['.', ' '] pos
      let nextNewline := idxOfFrom text ['\n'] pos
      let stop1 := match nextPeriod with
        | some i => min text.length (i + 1)
        | none => text.length
      let stop := match nextNewline with
        | some i => min stop1 (i + 1)
        | none => stop1
      let sentence := trimL ((text.drop pos).take (stop - pos))
      let rest := getSentencesAux text (if stop < text.length then stop else text.length) fuel
      if sentence.length > 0 then Seg.mk sentence pos stop :: rest else rest
    else []

/-- getSentences. -/
def getSentences (text : List Char) : List Seg :=
  getSentencesAux text 0 (text.length + 1)

/-- Paragraph splitter: boundary is a blank line ("\n\n"); spans end before the
boundary and resume after it. -/
def getParagraphsAux (text : List Char) : Nat → Nat → List Seg
  | _, 0 => []
  | pos, fuel + 1 =>
    if pos < text.length then
      let nextDouble := idxOfFrom text ['\n', '\n'] pos
      let stop := match nextDouble with
        | some i => i
        | none => text.length
      let paragraph := trimL ((text.drop pos).take (stop - pos))
      let newPos := match nextDouble with
        | some i => i + 2
        | none => text.length
      let rest := getParagraphsAux text newPos fuel
      if paragraph.length > 0 then Seg.mk paragraph pos stop :: rest else rest
    else []

/-- getParagraphs. -/
def getParagraphs (text : List Char) : List Seg :=
  getParagraphsAux text 0 (text.length + 1)

/-- indexOfPhrase: case-insensitive first index, as a containment test plus index. -/
def indexOfPhrase (text : List Char) (phrase : String) : Option Nat :=
  idxOfFrom (lowerL text) (lowerS phrase) 0

/-- A half-open character range [start, stop). -/
structure CRange where
  start : Nat
  stop : Nat
deriving DecidableEq

/-- The merging loop of mergeRanges over the start-sorted tail: extend the open
range while the next one starts at most one character past its end, else emit it. -/
def mergeLoop : CRange → List CRange → List CRange
  | last, [] => [last]
  | last, cur :: rest =>
      if cur.start ≤ last.stop + 1 then mergeLoop (CRange.mk last.start (max last.stop cur.stop)) rest
      else last :: mergeLoop cur rest

/-- mergeRanges: stable sort by start, then merge overlapping or adjacent ranges. -/
def mergeRanges (ranges : List CRange) : List CRange :=
  match sortAsc (·.start) ranges with
  | [] => []
  | r :: rest => mergeLoop r rest

/-- Extractor options with the source defaults. -/
structure PassageExtractorOptions where
  sentenceWindow : Nat := 2
  useParagraphs : Bool := false
  maxCharsPerSubject : Nat := 12000
deriving DecidableEq

/-- Extracted passage: character span, trimmed text, first trigger that caused it. -/
structure ExtractedPassage where
  start : Nat
  stop : Nat
  text : List Char
  triggerMatched : String
  subjectId : String
deriving DecidableEq

/-- A hit range around one trigger-containing segment. -/
structure HitRange where
  start : Nat
  stop : Nat
  trigger : String
deriving DecidableEq

/-- The per-segment hit search of extractPassagesForSubject: for each segment
containing a trigger (first trigger wins), the range spanning `window` segments
on each side. -/
def hitRangesOf (segments : List Seg) (triggers : List String) (window : Nat) : List HitRange :=
  (List.range segments.length).filterMap
    (fun i =>
      let seg := segments.getD i (Seg.mk [] 0 0)
      match triggers.find? (fun phrase => (indexOfPhrase seg.text phrase).isSome) with
      | some phrase =>
          let lo := i - window
          let hi := min (segments.length - 1) (i + window)
          some (HitRange.mk (segments.getD lo (Seg.mk [] 0 0)).start
            (segments.getD hi (Seg.mk [] 0 0)).stop phrase)
      | none => none)

/-- Build one output passage from a merged range (drop it when the trimmed text
is empty), attributing the first hit that starts or ends where the range does. -/
def passageOfRange (fullText : List Char) (subjectId : String) (hitRanges : List HitRange)
    (triggers : List String) (range : CRange) : Option ExtractedPassage :=
  let text := trimL ((fullText.drop range.start).take (range.stop - range.start))
  if text.length > 0 then
    let trigger :=
      ((hitRanges.find? (fun h =>
          decide (h.start = range.start) ||
            (decide (h.stop = range.stop) && decide (h.start ≤ range.start)))).map
        (·.trigger)).getD (triggers.getD 0 "")
    some (ExtractedPassage.mk range.start range.stop text trigger subjectId)
  else none

/-- extractPassagesForSubject: segment, find trigger neighbourhoods, merge
overlapping or adjacent ranges, and emit the non-empty merged passages. -/
def extractPassagesForSubject (fullText : List Char) (subjectId : String)
    (options : PassageExtractorOptions := {}) : List ExtractedPassage :=
  let triggers :=
    ((SUBJECT_TRIGGER_PHRASES.find? (fun p => decide (p.1 = subjectId))).map (·.2)).getD
      (((SUBJECT_TRIGGER_PHRASES.find? (fun p => decide (p.1 = "migration"))).map (·.2)).getD [])
  if triggers.isEmpty then []
  else
    let window := options.sentenceWindow
    let segments := if options.useParagraphs then getParagraphs fullText else getSentences fullText
    let hitRanges := hitRangesOf segments triggers window
    let merged := mergeRanges (hitRanges.map (fun h => CRange.mk h.start h.stop))
    merged.filterMap (passageOfRange fullText subjectId hitRanges triggers)

/-- Observer: the share recorded for a framing in a share list (0 when absent). -/
def shareOf (l : List RespectShare) (r : PipelineRespectId) : ℚ :=
  ((l.find? (fun s => decide (s.respect_id = r))).map (·.share)).getD 0

/-! ## Concrete inputs used by counterexamples and witnesses -/

/-- Media aggregate whose shares list carries a nonzero humanitarian share
(dominant security_border). -/
def exMediaTwoShares : MediaFramingAggregate :=
  { dominant := ⟨.security_border, 3/5⟩
  , shares := [⟨.security_border, 3/5⟩, ⟨.humanitarian, 2/5⟩]
  , top_phrases := [], exemplars := [], source_ids := [], volume := 2
  , media_type_breakdown := [] }

/-- Polling aggregate with the same two shares (public prior security_border). -/
def exPublicTwoShares : PublicPollingAggregate :=
  { public_prior := ⟨.security_border, 3/5⟩
  , shares := [⟨.security_border, 3/5⟩, ⟨.humanitarian, 2/5⟩]
  , split_summary := "", trend_summary := "", supporting_polls := []
  , source_ids := [], question_level := [] }

/-- Media aggregate for the split-dominance example: shares A 0.5, B 0.42, C 0.08. -/
def exMediaSplit : MediaFramingAggregate :=
  { dominant := ⟨.security_border, 1/2⟩
  , shares := [⟨.security_border, 1/2⟩, ⟨.humanitarian, 42/100⟩, ⟨.rule_of_law, 8/100⟩]
  , top_phrases := [], exemplars := [], source_ids := [], volume := 3
  , media_type_breakdown := [] }

/-- Polling aggregate for the split-dominance example: same shares. -/
def exPublicSplit : PublicPollingAggregate :=
  { public_prior := ⟨.security_border, 1/2⟩
  , shares := [⟨.security_border, 1/2⟩, ⟨.humanitarian, 42/100⟩, ⟨.rule_of_law, 8/100⟩]
  , split_summary := "", trend_summary := "", supporting_polls := []
  , source_ids := [], question_level := [] }

/-- Media aggregate for the tie example: humanitarian 0.35 (0.35 × 0.45 = 0.1575). -/
def exMediaTie : MediaFramingAggregate :=
  { dominant := ⟨.humanitarian, 35/100⟩
  , shares := [⟨.humanitarian, 35/100⟩]
  , top_phrases := [], exemplars := [], source_ids := [], volume := 1
  , media_type_breakdown := [] }

/-- Polling aggregate for the tie example: security_border 0.45 (0.45 × 0.35 = 0.1575). -/
def exPublicTie : PublicPollingAggregate :=
  { public_prior := ⟨.security_border, 45/100⟩
  , shares := [⟨.security_border, 45/100⟩]
  , split_summary := "", trend_summary := "", supporting_polls := []
  , source_ids := [], question_level := [] }

/-- Poll whose second option matches no option-level pattern. -/
def exPollUnmatched : RawPollItem :=
  { id := "poll_cex", pollster := "Pollster", question := "Question"
  , options := ["Support tougher measures", "No opinion"]
  , results := [3/5, 2/5]
  , fieldwork_dates := "2025-01-01", published_at := "2025-01-02"
  , url := none, sample_size := some 1000 }

/-- Metric whose label matches exactly the stability seed. -/
def exMetricStability : RawMetricItem :=
  { metric_id := "metric_cex", label := "stability", unit := "n"
  , latest_value := 2, previous_value := 1, period := "2025"
  , updated_at := "2025-01-01", source_ref := none }

/-- A raw media item for the LLM-fallback batch. -/
def exMediaItemLLM : RawMediaItem :=
  { id := "llm_item", outlet := "BBC", media_type := none
  , title := "Ministers vow crackdown on small boats"
  , lede := none, url := none, published_at_ms := 0, respect_id := none }

/-- Six raw media items with distinct ids and a shared publication time. -/
def exRawSix : List RawMediaItem :=
  [ { id := "i0", outlet := "BBC", media_type := none, title := "Stop the boats zero"
    , lede := none, url := none, published_at_ms := 0, respect_id := none }
  , { id := "i1", outlet := "BBC", media_type := none, title := "Stop the boats one"
    , lede := none, url := none, published_at_ms := 0, respect_id := none }
  , { id := "i2", outlet := "BBC", media_type := none, title := "Stop the boats two"
    , lede := none, url := none, published_at_ms := 0, respect_id := none }
  , { id := "i3", outlet := "BBC", media_type := none, title := "Stop the boats three"
    , lede := none, url := none, published_at_ms := 0, respect_id := none }
  , { id := "i4", outlet := "BBC", media_type := none, title := "Stop the boats four"
    , lede := none, url := none, published_at_ms := 0, respect_id := none }
  , { id := "i5", outlet := "BBC", media_type := none, title := "Stop the boats five"
    , lede := none, url := none, published_at_ms := 0, respect_id := none } ]

/-- Six classified media items with distinct confidences matching exRawSix. -/
def exClassSix : List ClassifiedItem :=
  [ { item_type := .media, subject_id := "small_boats", item_id := "i0"
    , respect_id := .security_border, confidence := 50/100, rationale := [], extracted_phrases := [] }
  , { item_type := .media, subject_id := "small_boats", item_id := "i1"
    , respect_id := .security_border, confidence := 51/100, rationale := [], extracted_phrases := [] }
  , { item_type := .media, subject_id := "small_boats", item_id := "i2"
    , respect_id := .security_border, confidence := 52/100, rationale := [], extracted_phrases := [] }
  , { item_type := .media, subject_id := "small_boats", item_id := "i3"
    , respect_id := .humanitarian, confidence := 53/100, rationale := [], extracted_phrases := [] }
  , { item_type := .media, subject_id := "small_boats", item_id := "i4"
    , respect_id := .humanitarian, confidence := 54/100, rationale := [], extracted_phrases := [] }
  , { item_type := .media, subject_id := "small_boats", item_id := "i5"
    , respect_id := .security_border, confidence := 55/100, rationale := [], extracted_phrases := [] } ]

/-! ## General lemmas about the JS-semantics helpers -/

theorem insertAsc_perm {α β : Type} [LinearOrder β] (key : α → β) (x : α) (l : List α) :
    (insertAsc key x l).Perm (x :: l) := by
  induction l with
  | nil => simp [insertAsc]
  | cons y ys ih =>
      by_cases h : key x ≤ key y
      · simp [insertAsc, h]
      · simp only [insertAsc, if_neg h]
        exact (ih.cons y).trans (List.Perm.swap x y ys)

theorem sortAsc_perm {α β : Type} [LinearOrder β] (key : α → β) (l : List α) :
    (sortAsc key l).Perm l := by
  induction l with
  | nil => simp [sortAsc]
  | cons x xs ih => exact (insertAsc_perm key x (sortAsc key xs)).trans (ih.cons x)

theorem insertDesc_perm {α β : Type} [LinearOrder β] (key : α → β) (x : α) (l : List α) :
    (insertDesc key x l).Perm (x :: l) := by
  induction l with
  | nil => simp [insertDesc]
  | cons y ys ih =>
      by_cases h : key y ≤ key x
      · simp [insertDesc, h]
      · simp only [insertDesc, if_neg h]
        exact (ih.cons y).trans (List.Perm.swap x y ys)

theorem sortDesc_perm {α β : Type} [LinearOrder β] (key : α → β) (l : List α) :
    (sortDesc key l).Perm l := by
  induction l with
  | nil => simp [sortDesc]
  | cons x xs ih => exact (insertDesc_perm key x (sortDesc key xs)).trans (ih.cons x)

theorem mem_insertDesc {α β : Type} [LinearOrder β] {key : α → β} {x a : α} {l : List α} :
    a ∈ insertDesc key x l ↔ a ∈ x :: l :=
  (insertDesc_perm key x l).mem_iff

theorem mem_sortDesc {α β : Type} [LinearOrder β] {key : α → β} {a : α} {l : List α} :
    a ∈ sortDesc key l ↔ a ∈ l :=
  (sortDesc_perm key l).mem_iff

theorem insertAsc_pairwise {α β : Type} [LinearOrder β] {key : α → β} {x : α} {l : List α}
    (h : l.Pairwise (fun a b => key a ≤ key b)) :
    (insertAsc key x l).Pairwise (fun a b => key a ≤ key b) := by
  induction l with
  | nil => simp [insertAsc]
  | cons y ys ih =>
      rcases List.pairwise_cons.mp h with ⟨hy, hys⟩
      by_cases hxy : key x ≤ key y
      · rw [insertAsc, if_pos hxy]
        refine List.pairwise_cons.mpr ⟨?_, h⟩
        intro z hz
        rcases List.mem_cons.mp hz with rfl | hz
        · exact hxy
        · exact hxy.trans (hy z hz)
      · rw [insertAsc, if_neg hxy]
        refine List.pairwise_cons.mpr ⟨?_, ih hys⟩
        intro z hz
        rcases List.mem_cons.mp ((insertAsc_perm key x ys).mem_iff.mp hz) with rfl | hz
        · exact le_of_not_le hxy
        · exact hy z hz

theorem sortAsc_pairwise {α β : Type} [LinearOrder β] (key : α → β) (l : List α) :
    (sortAsc key l).Pairwise (fun a b => key a ≤ key b) := by
  induction l with
  | nil => simp [sortAsc]
  | cons x xs ih => exact insertAsc_pairwise ih

theorem insertDesc_pairwise {α β : Type} [LinearOrder β] {key : α → β} {x : α} {l : List α}
    (h : l.Pairwise (fun a b => key b ≤ key a)) :
    (insertDesc key x l).Pairwise (fun a b => key b ≤ key a) := by
  induction l with
  | nil => simp [insertDesc]
  | cons y ys ih =>
      rcases List.pairwise_cons.mp h with ⟨hy, hys⟩
      by_cases hxy : key y ≤ key x
      · rw [insertDesc, if_pos hxy]
        refine List.pairwise_cons.mpr ⟨?_, h⟩
        intro z hz
        rcases List.mem_cons.mp hz with rfl | hz
        · exact hxy
        · exact (hy z hz).trans hxy
      · rw [insertDesc, if_neg hxy]
        refine List.pairwise_cons.mpr ⟨?_, ih hys⟩
        intro z hz
        rcases List.mem_cons.mp ((insertDesc_perm key x ys).mem_iff.mp hz) with rfl | hz
        · exact le_of_not_le hxy
        · exact hy z hz

theorem sortDesc_pairwise {α β : Type} [LinearOrder β] (key : α → β) (l : List α) :
    (sortDesc key l).Pairwise (fun a b => key b ≤ key a) := by
  induction l with
  | nil => simp [sortDesc]
  | cons x xs ih => exact insertDesc_pairwise ih

theorem map_insertDesc {α β : Type} [LinearOrder β] (f : α → β) (x : α) (l : List α) :
    (insertDesc f x l).map f = insertDesc id (f x) (l.map f) := by
  induction l with
  | nil => simp [insertDesc]
  | cons y ys ih =>
      by_cases h : f y ≤ f x
      · simp [insertDesc, h]
      · simp [insertDesc, h, ih]

theorem map_sortDesc {α β : Type} [LinearOrder β] (f : α → β) (l : List α) :
    (sortDesc f l).map f = sortDesc id (l.map f) := by
  induction l with
  | nil => simp [sortDesc]
  | cons x xs ih => simp [sortDesc, map_insertDesc, ih]

theorem jsMapAdd_sum {κ : Type} [DecidableEq κ] (m : List (κ × ℚ)) (k : κ) (v : ℚ) :
    ((jsMapAdd m k v).map (·.2)).sum = (m.map (·.2)).sum + v := by
  induction m with
  | nil => simp [jsMapAdd]
  | cons p rest ih =>
      by_cases h : p.1 = k
      · simp only [jsMapAdd]
        rw [if_pos h]
        simp [add_assoc, add_comm v]
      · simp only [jsMapAdd]
        rw [if_neg h]
        simp [ih, add_assoc]

theorem jsMapGet_cons {κ : Type} [DecidableEq κ] (pk : κ) (pv : ℚ) (rest : List (κ × ℚ)) (r : κ) :
    jsMapGet ((pk, pv) :: rest) r = if pk = r then some pv else jsMapGet rest r := by
  by_cases h : pk = r
  · simp [jsMapGet, List.find?, h]
  · simp [jsMapGet, List.find?, h]

theorem jsMapGet_jsMapAdd {κ : Type} [DecidableEq κ] (m : List (κ × ℚ)) (k r : κ) (v : ℚ) :
    jsMapGet (jsMapAdd m k v) r =
      if r = k then some (((jsMapGet m k).getD 0) + v) else jsMapGet m r := by
  induction m with
  | nil =>
      by_cases h : r = k
      · subst h
        simp [jsMapAdd, jsMapGet_cons, jsMapGet]
      · simp [jsMapAdd, jsMapGet_cons, jsMapGet, h, Ne.symm h]
  | cons p rest ih =>
      obtain ⟨pk, pv⟩ := p
      by_cases hpk : pk = k
      · subst hpk
        rw [show jsMapAdd ((pk, pv) :: rest) pk v = (pk, pv + v) :: rest from by
          simp [jsMapAdd]]
        by_cases hrk : r = pk
        · subst hrk
          simp [jsMapGet_cons]
        · have hpr : ¬pk = r := fun hh => hrk hh.symm
          simp [jsMapGet_cons, hrk, hpr]
      · rw [show jsMapAdd ((pk, pv) :: rest) k v = (pk, pv) :: jsMapAdd rest k v from by
          simp [jsMapAdd, hpk]]
        by_cases hpr : pk = r
        · subst hpr
          have hrk : ¬pk = k := hpk
          simp [jsMapGet_cons, hrk]
        · rw [jsMapGet_cons, if_neg hpr, ih, jsMapGet_cons, if_neg hpk, jsMapGet_cons, if_neg hpr]

/-! ## Lemmas for the passage extractor -/

theorem mergeLoop_start_le (last : CRange) (rest : List CRange)
    (h : (last :: rest).Pairwise (fun a b => a.start ≤ b.start)) :
    ∀ m ∈ mergeLoop last rest, last.start ≤ m.start := by
  induction rest generalizing last with
  | nil =>
      intro m hm
      simp only [mergeLoop, List.mem_singleton] at hm
      simp [hm]
  | cons cur rest ih =>
      intro m hm
      rcases List.pairwise_cons.mp h with ⟨hlast, hcur⟩
      rcases List.pairwise_cons.mp hcur with ⟨hcur2, hrest⟩
      by_cases hmerge : cur.start ≤ last.stop + 1
      · rw [mergeLoop, if_pos hmerge] at hm
        have hpair : (CRange.mk last.start (max last.stop cur.stop) :: rest).Pairwise
            (fun a b => a.start ≤ b.start) := by
          refine List.pairwise_cons.mpr ⟨?_, hrest⟩
          intro r hr
          exact hlast r (List.mem_cons_of_mem cur hr)
        exact ih _ hpair m hm
      · rw [mergeLoop, if_neg hmerge] at hm
        rcases List.mem_cons.mp hm with rfl | hm
        · exact le_refl _
        · exact (hlast cur (List.mem_cons_self cur rest)).trans
            (ih cur (List.pairwise_cons.mpr ⟨hcur2, hrest⟩) m hm)

theorem mergeLoop_pairwise (last : CRange) (rest : List CRange)
    (h : (last :: rest).Pairwise (fun a b => a.start ≤ b.start)) :
    (mergeLoop last rest).Pairwise (fun a b => a.stop + 1 < b.start) := by
  induction rest generalizing last with
  | nil => simp [mergeLoop]
  | cons cur rest ih =>
      rcases List.pairwise_cons.mp h with ⟨hlast, hcur⟩
      rcases List.pairwise_cons.mp hcur with ⟨hcur2, hrest⟩
      by_cases hmerge : cur.start ≤ last.stop + 1
      · rw [mergeLoop, if_pos hmerge]
        refine ih _ (List.pairwise_cons.mpr ⟨?_, hrest⟩)
        intro r hr
        exact hlast r (List.mem_cons_of_mem cur hr)
      · rw [mergeLoop, if_neg hmerge]
        refine List.pairwise_cons.mpr ⟨?_, ih cur (List.pairwise_cons.mpr ⟨hcur2, hrest⟩)⟩
        intro m hm
        have h1 : cur.start ≤ m.start :=
          mergeLoop_start_le cur rest (List.pairwise_cons.mpr ⟨hcur2, hrest⟩) m hm
        omega

theorem mergeRanges_pairwise (ranges : List CRange) :
    (mergeRanges ranges).Pairwise (fun a b => a.stop + 1 < b.start) := by
  have hs := sortAsc_pairwise (fun r : CRange => r.start) ranges
  rw [mergeRanges]
  cases hcase : sortAsc (fun r : CRange => r.start) ranges with
  | nil => simp
  | cons r rest =>
      rw [hcase] at hs
      exact mergeLoop_pairwise r rest hs

theorem pairwise_filterMap_of {α β : Type} {R : α → α → Prop} {S : β → β → Prop}
    (g : α → Option β)
    (hg : ∀ a b a' b', g a = some b → g a' = some b' → R a a' → S b b') :
    ∀ {l : List α}, l.Pairwise R → (l.filterMap g).Pairwise S := by
  intro l hl
  induction l with
  | nil => simp
  | cons x xs ih =>
      rcases List.pairwise_cons.mp hl with ⟨hx, hxs⟩
      rw [List.filterMap_cons]
      cases hgx : g x with
      | none => exact ih hxs
      | some b =>
          refine List.pairwise_cons.mpr ⟨?_, ih hxs⟩
          intro b' hb'
          rcases List.mem_filterMap.mp hb' with ⟨a', ha', hga'⟩
          exact hg x b a' b' hgx hga' (hx a' ha')

theorem trimL_length_le (l : List Char) : (trimL l).length ≤ l.length := by
  calc (trimL l).length
      = ((l.dropWhile isSpaceChar).reverse.dropWhile isSpaceChar).length := by
        rw [trimL, List.length_reverse]
    _ ≤ (l.dropWhile isSpaceChar).reverse.length := (List.dropWhile_sublist isSpaceChar).length_le
    _ = (l.dropWhile isSpaceChar).length := List.length_reverse _
    _ ≤ l.length := (List.dropWhile_sublist isSpaceChar).length_le

theorem passageOfRange_some {fullText : List Char} {subjectId : String}
    {hitRanges : List HitRange} {triggers : List String} {range : CRange}
    {p : ExtractedPassage}
    (h : passageOfRange fullText subjectId hitRanges triggers range = some p) :
    p.start = range.start ∧ p.stop = range.stop ∧ range.start < range.stop := by
  rw [passageOfRange] at h
  by_cases hlen : (trimL ((fullText.drop range.start).take (range.stop - range.start))).length > 0
  · rw [if_pos hlen] at h
    have hp := Option.some.inj h
    have hle : (trimL ((fullText.drop range.start).take (range.stop - range.start))).length ≤
        range.stop - range.start := by
      calc (trimL ((fullText.drop range.start).take (range.stop - range.start))).length
          ≤ ((fullText.drop range.start).take (range.stop - range.start)).length :=
            trimL_length_le _
        _ ≤ range.stop - range.start := by
            rw [List.length_take]
            exact min_le_left _ _
    refine ⟨?_, ?_, ?_⟩
    · rw [← hp]
    · rw [← hp]
    · omega
  · rw [if_neg hlen] at h
    exact absurd h (by simp)

/-- C9: for every input text, subject id and window options, the passages returned by
extractPassagesForSubject occupy pairwise non-overlapping character ranges, listed in
ascending order, and every later passage starts more than one character after every
earlier one ends (overlapping or adjacent expanded ranges having been merged), so no
passage is emitted twice and no character position occurs in two returned passages. -/
theorem extractPassages_ranges_disjoint (fullText : List Char) (subjectId : String)
    (options : PassageExtractorOptions) :
    (∀ p ∈ extractPassagesForSubject fullText subjectId options, p.start < p.stop) ∧
    (extractPassagesForSubject fullText subjectId options).Pairwise
      (fun a b => a.stop + 1 < b.start) := by
  have key : ∀ (hr : List HitRange) (tr : List String) (rg : List CRange),
      (∀ p ∈ (mergeRanges rg).filterMap (passageOfRange fullText subjectId hr tr),
        p.start < p.stop) ∧
      ((mergeRanges rg).filterMap (passageOfRange fullText subjectId hr tr)).Pairwise
        (fun a b => a.stop + 1 < b.start) := by
    intro hr tr rg
    constructor
    · intro p hp
      rcases List.mem_filterMap.mp hp with ⟨r, _, hgr⟩
      obtain ⟨e1, e2, hlt⟩ := passageOfRange_some hgr
      rw [e1, e2]
      exact hlt
    · refine pairwise_filterMap_of _ ?_ (mergeRanges_pairwise _)
      intro a b a' b' ha ha' hR
      obtain ⟨_, e2, _⟩ := passageOfRange_some ha
      obtain ⟨e1', _, _⟩ := passageOfRange_some ha'
      rw [e2, e1']
      exact hR
  unfold extractPassagesForSubject
  by_cases htr :
      (((SUBJECT_TRIGGER_PHRASES.find? (fun p => decide (p.1 = subjectId))).map (·.2)).getD
        (((SUBJECT_TRIGGER_PHRASES.find? (fun p => decide (p.1 = "migration"))).map
          (·.2)).getD [])).isEmpty = true
  · rw [if_pos htr]
    simp
  · rw [if_neg htr]
    exact key _ _ _

/-- Witness for C9: on a concrete text with two trigger sentences and window 1, the
extractor returns passages whose ranges are strictly ordered with a gap above one
character. -/
theorem extractPassages_ranges_disjoint_witness :
    (∀ p ∈ extractPassagesForSubject
        "Asylum policy one. Filler a. Filler b. Filler c. Migrants two. Filler d.".data
        "small_boats" { sentenceWindow := 1 }, p.start < p.stop) ∧
    (extractPassagesForSubject
        "Asylum policy one. Filler a. Filler b. Filler c. Migrants two. Filler d.".data
        "small_boats" { sentenceWindow := 1 }).Pairwise
      (fun a b => a.stop + 1 < b.start) :=
  extractPassages_ranges_disjoint _ _ _

/-! ## Dominance lemmas and claims C1, C2, C4 -/

theorem jsMapAdd_getD {κ : Type} [DecidableEq κ] (m : List (κ × ℚ)) (k r : κ) (v : ℚ) :
    (jsMapGet (jsMapAdd m k v) r).getD 0 =
      (jsMapGet m r).getD 0 + (if r = k then v else 0) := by
  rw [jsMapGet_jsMapAdd]
  by_cases h : r = k
  · subst h
    simp
  · simp [h]

theorem weightedVote_dominant (media : MediaFramingAggregate)
    (publicAgg : PublicPollingAggregate) (subjectId : String) :
    (weightedVote media publicAgg subjectId).dominant =
      (match (sortDesc (·.2) (voteScores media publicAgg subjectId)).head? with
       | some p => ScorePair.mk p.1 p.2
       | none => ScorePair.mk .security_border (1/2)) := rfl

theorem weightedVote_split (media : MediaFramingAggregate)
    (publicAgg : PublicPollingAggregate) (subjectId : String) :
    (weightedVote media publicAgg subjectId).split_dominance =
      (match sortDesc (·.2) (voteScores media publicAgg subjectId) with
       | a :: b :: _ => decide (|a.2 - b.2| < 1/10)
       | _ => false) := rfl

/-- C1 (amended): in the dominance computation, a framing's score is the media
aggregate's dominant share times 0.45 when that framing is the media dominant, plus
the public prior share times 0.35 when it is the public prior framing, plus 0.20
when it is the configured institutional framing — framings that merely appear in the
aggregates' shares lists contribute nothing. -/
theorem voteScores_formula (media : MediaFramingAggregate)
    (publicAgg : PublicPollingAggregate) (subject : String) (r : PipelineRespectId) :
    (jsMapGet (voteScores media publicAgg subject) r).getD 0 =
      (if r = media.dominant.respect_id then media.dominant.share * MEDIA_WEIGHT else 0) +
      (if r = publicAgg.public_prior.respect_id then
        publicAgg.public_prior.share * PUBLIC_WEIGHT else 0) +
      (match INSTITUTIONAL_RESPECT_BY_SUBJECT.find? (fun p => decide (p.1 = subject)) with
       | some inst => if r = inst.2.respect_id then INSTITUTIONAL_WEIGHT else 0
       | none => 0) := by
  unfold voteScores
  cases hfind : INSTITUTIONAL_RESPECT_BY_SUBJECT.find? (fun p => decide (p.1 = subject)) with
  | none =>
      rw [jsMapAdd_getD, jsMapAdd_getD]
      simp [jsMapGet]
  | some inst =>
      rw [jsMapAdd_getD, jsMapAdd_getD, jsMapAdd_getD]
      simp [jsMapGet]

/-- C1 counterexample: with both aggregates carrying a nonzero humanitarian share of
0.4 but security_border dominant, the score map has no humanitarian entry at all —
the claimed weighted contribution 0.4 × 0.45 + 0.4 × 0.35 is not assigned. -/
theorem voteScores_drops_nondominant_share :
    (RespectShare.mk .humanitarian (2/5)) ∈ exMediaTwoShares.shares ∧
    (RespectShare.mk .humanitarian (2/5)) ∈ exPublicTwoShares.shares ∧
    ¬ ((2:ℚ)/5 = 0) ∧
    jsMapGet (voteScores exMediaTwoShares exPublicTwoShares "other")
      PipelineRespectId.humanitarian = none ∧
    ¬ ((2:ℚ)/5 * MEDIA_WEIGHT + (2:ℚ)/5 * PUBLIC_WEIGHT = 0) := by
  refine ⟨List.mem_cons_of_mem _ (List.mem_cons_self _ _),
    List.mem_cons_of_mem _ (List.mem_cons_self _ _), by norm_num, by decide,
    by norm_num [MEDIA_WEIGHT, PUBLIC_WEIGHT]⟩

theorem sortDesc_id_head_max {l : List ℚ} {a : ℚ} {rest : List ℚ}
    (h : sortDesc id l = a :: rest) : l.maximum = some a := by
  show l.maximum = (a : WithBot ℚ)
  rw [List.maximum_eq_coe_iff]
  constructor
  · have : a ∈ sortDesc id l := by
      rw [h]
      exact List.mem_cons_self _ _
    exact mem_sortDesc.mp this
  · intro b hb
    have hb' : b ∈ sortDesc id l := mem_sortDesc.mpr hb
    rw [h] at hb'
    rcases List.mem_cons.mp hb' with rfl | hb'
    · exact le_refl _
    · have hp := sortDesc_pairwise (id : ℚ → ℚ) l
      rw [h] at hp
      exact List.pairwise_cons.mp hp |>.1 b hb'

theorem sortDesc_id_second_max {l : List ℚ} {a b : ℚ} {rest : List ℚ}
    (h : sortDesc id l = a :: b :: rest) : (l.erase a).maximum = some b := by
  have hperm : List.Perm (l.erase a) (b :: rest) := by
    have h1 : List.Perm l (a :: b :: rest) := by
      rw [← h]
      exact (sortDesc_perm id l).symm
    have h2 := h1.erase a
    rw [List.erase_cons_head] at h2
    exact h2
  show (l.erase a).maximum = (b : WithBot ℚ)
  rw [List.maximum_eq_coe_iff]
  constructor
  · exact hperm.mem_iff.mpr (List.mem_cons_self _ _)
  · intro c hc
    have hc' : c ∈ b :: rest := hperm.mem_iff.mp hc
    rcases List.mem_cons.mp hc' with rfl | hc'
    · exact le_refl _
    · have hp := sortDesc_pairwise (id : ℚ → ℚ) l
      rw [h] at hp
      exact (List.pairwise_cons.mp (List.pairwise_cons.mp hp).2).1 c hc'

/-- C2 (amended): split_dominance is true iff the dominance score map has at least two
entries and the gap between its largest and second-largest scores is below 0.10 (an
absolute threshold); on the claim's concrete example — media shares A 0.5 / B 0.42 /
C 0.08, identical public shares, no institutional configuration — only framing A
enters the score map (each source contributes only its top framing), so the snapshot
has split_dominance = false, not true. -/
theorem split_dominance_characterisation :
    (∀ (media : MediaFramingAggregate) (publicAgg : PublicPollingAggregate) (s : String),
      ((weightedVote media publicAgg s).split_dominance = true ↔
        2 ≤ (voteScores media publicAgg s).length ∧
        ∃ a b, ((voteScores media publicAgg s).map (·.2)).maximum = some a ∧
          (((voteScores media publicAgg s).map (·.2)).erase a).maximum = some b ∧
          |a - b| < 1/10)) ∧
    (weightedVote exMediaSplit exPublicSplit "other").split_dominance = false := by
  constructor
  · intro media publicAgg s
    rw [weightedVote_split]
    have hmap := map_sortDesc (fun p : PipelineRespectId × ℚ => p.2)
      (voteScores media publicAgg s)
    have hlen : (sortDesc (fun p : PipelineRespectId × ℚ => p.2)
        (voteScores media publicAgg s)).length = (voteScores media publicAgg s).length :=
      (sortDesc_perm _ _).length_eq
    cases hsort : sortDesc (fun p : PipelineRespectId × ℚ => p.2)
        (voteScores media publicAgg s) with
    | nil =>
        simp only [hsort, List.length_nil] at hlen
        constructor
        · intro hfalse
          simp at hfalse
        · rintro ⟨h2, _⟩
          omega
    | cons x tail =>
        cases tail with
        | nil =>
            simp only [hsort, List.length_cons, List.length_nil] at hlen
            constructor
            · intro hfalse
              simp at hfalse
            · rintro ⟨h2, _⟩
              omega
        | cons y rest =>
            have hvals : sortDesc id ((voteScores media publicAgg s).map (·.2)) =
                x.2 :: y.2 :: rest.map (·.2) := by
              rw [← hmap, hsort]
              simp
            constructor
            · intro htrue
              refine ⟨?_, x.2, y.2, sortDesc_id_head_max hvals,
                sortDesc_id_second_max hvals, ?_⟩
              · rw [← hlen, hsort]
                simp only [List.length_cons]
                omega
              · exact of_decide_eq_true htrue
            · rintro ⟨_, a, b, hmax, hsecond, hgap⟩
              have ha : a = x.2 := by
                have := sortDesc_id_head_max hvals
                rw [hmax] at this
                exact Option.some.inj this
              have hb : b = y.2 := by
                subst ha
                have := sortDesc_id_second_max hvals
                rw [hsecond] at this
                exact Option.some.inj this
              subst ha
              subst hb
              exact decide_eq_true hgap
  · decide

/-- C2 counterexample: on the claim's example (media shares A 0.5 / B 0.42 / C 0.08,
identical public shares, no institutional entry for the subject) the produced snapshot
has split_dominance = false, not true as claimed. -/
theorem split_dominance_example_false :
    (RespectShare.mk .humanitarian (42/100)) ∈ exMediaSplit.shares ∧
    (RespectShare.mk .humanitarian (42/100)) ∈ exPublicSplit.shares ∧
    INSTITUTIONAL_RESPECT_BY_SUBJECT.find? (fun p => decide (p.1 = "other")) = none ∧
    (weightedVote exMediaSplit exPublicSplit "other").split_dominance = false := by
  refine ⟨List.mem_cons_of_mem _ (List.mem_cons_self _ _),
    List.mem_cons_of_mem _ (List.mem_cons_self _ _), by decide, by decide⟩

/-- C4 (amended): when the media dominant framing and the public prior framing differ
but their weighted scores are exactly equal, and the subject has no institutional
entry, the winner is the media framing — the first inserted into the score map —
regardless of catalog order; ties are broken by contribution insertion order
(media, then public, then institutional), not by catalog position. -/
theorem dominance_tie_insertion_order (media : MediaFramingAggregate)
    (publicAgg : PublicPollingAggregate) (subject : String)
    (hinst : INSTITUTIONAL_RESPECT_BY_SUBJECT.find? (fun p => decide (p.1 = subject)) = none)
    (hne : media.dominant.respect_id ≠ publicAgg.public_prior.respect_id)
    (htie : media.dominant.share * MEDIA_WEIGHT = publicAgg.public_prior.share * PUBLIC_WEIGHT) :
    (weightedVote media publicAgg subject).dominant.respect_id =
      media.dominant.respect_id := by
  have h1 : voteScores media publicAgg subject =
      [ (media.dominant.respect_id, media.dominant.share * MEDIA_WEIGHT)
      , (publicAgg.public_prior.respect_id, publicAgg.public_prior.share * PUBLIC_WEIGHT) ] := by
    unfold voteScores
    rw [hinst]
    simp [jsMapAdd, hne]
  have h2 : sortDesc (fun p : PipelineRespectId × ℚ => p.2) (voteScores media publicAgg subject) =
      [ (media.dominant.respect_id, media.dominant.share * MEDIA_WEIGHT)
      , (publicAgg.public_prior.respect_id, publicAgg.public_prior.share * PUBLIC_WEIGHT) ] := by
    rw [h1]
    simp only [sortDesc, insertDesc]
    rw [if_pos (le_of_eq htie.symm)]
  rw [weightedVote_dominant, h2]
  rfl

/-- Witness for the C4 amended theorem: with media humanitarian at share 0.35 and
public security_border at share 0.45 (both weighted scores 0.1575) and an
unconfigured subject, the winner is the media framing humanitarian. -/
theorem dominance_tie_insertion_order_witness :
    (weightedVote exMediaTie exPublicTie "other").dominant.respect_id =
      PipelineRespectId.humanitarian :=
  dominance_tie_insertion_order exMediaTie exPublicTie "other" (by decide) (by decide)
    (by norm_num [exMediaTie, exPublicTie, MEDIA_WEIGHT, PUBLIC_WEIGHT])

/-- C4 counterexample: with equal computed scores for humanitarian (media) and
security_border (public), the engine selects humanitarian even though
security_border appears strictly earlier in the static catalog. -/
theorem dominance_tie_not_catalog_order :
    jsMapGet (voteScores exMediaTie exPublicTie "other") PipelineRespectId.humanitarian =
      some ((35:ℚ)/100 * MEDIA_WEIGHT) ∧
    jsMapGet (voteScores exMediaTie exPublicTie "other") PipelineRespectId.security_border =
      some ((45:ℚ)/100 * PUBLIC_WEIGHT) ∧
    (35:ℚ)/100 * MEDIA_WEIGHT = (45:ℚ)/100 * PUBLIC_WEIGHT ∧
    (weightedVote exMediaTie exPublicTie "other").dominant.respect_id =
      PipelineRespectId.humanitarian ∧
    catalogIndex PipelineRespectId.security_border <
      catalogIndex PipelineRespectId.humanitarian := by
  have hfind : INSTITUTIONAL_RESPECT_BY_SUBJECT.find? (fun p => decide (p.1 = "other")) =
      none := by decide
  have htie : (45:ℚ)/100 * PUBLIC_WEIGHT = (35:ℚ)/100 * MEDIA_WEIGHT := by
    norm_num [MEDIA_WEIGHT, PUBLIC_WEIGHT]
  have hv : voteScores exMediaTie exPublicTie "other" =
      [ (PipelineRespectId.humanitarian, (35:ℚ)/100 * MEDIA_WEIGHT)
      , (PipelineRespectId.security_border, (45:ℚ)/100 * PUBLIC_WEIGHT) ] := by
    unfold voteScores
    rw [hfind]
    rfl
  have hsorted : sortDesc (fun p : PipelineRespectId × ℚ => p.2)
      (voteScores exMediaTie exPublicTie "other") =
      [ (PipelineRespectId.humanitarian, (35:ℚ)/100 * MEDIA_WEIGHT)
      , (PipelineRespectId.security_border, (45:ℚ)/100 * PUBLIC_WEIGHT) ] := by
    rw [hv]
    simp only [sortDesc, insertDesc]
    rw [if_pos (le_of_eq htie)]
  refine ⟨by rw [hv]; rfl, by rw [hv]; rfl, htie.symm, ?_, by decide⟩
  rw [weightedVote_dominant, hsorted]
  rfl

/-! ## Polling option-mapping lemmas and claim C5 -/

theorem addShare_ne_nil (l : List RespectShare) (r : PipelineRespectId) (v : ℚ) :
    addShare l r v ≠ [] := by
  cases l with
  | nil => simp [addShare]
  | cons s rest =>
      by_cases h : s.respect_id = r
      · simp [addShare, h]
      · simp [addShare, h]

theorem shareOf_addShare (l : List RespectShare) (r' : PipelineRespectId) (v : ℚ)
    (r : PipelineRespectId) :
    shareOf (addShare l r' v) r = shareOf l r + (if r' = r then v else 0) := by
  induction l with
  | nil =>
      by_cases h : r' = r
      · simp [addShare, shareOf, List.find?, h]
      · simp [addShare, shareOf, List.find?, h]
  | cons s rest ih =>
      by_cases hs : s.respect_id = r'
      · rw [addShare, if_pos hs]
        by_cases hr : s.respect_id = r
        · have hr'r : r' = r := hs ▸ hr
          simp [shareOf, List.find?, hr, hr'r, add_comm]
        · have hr'r : ¬(r' = r) := fun h => hr (hs.symm ▸ h ▸ rfl)
          simp [shareOf, List.find?, hr, hr'r]
      · rw [addShare, if_neg hs]
        by_cases hr : s.respect_id = r
        · have hr'r : ¬(r' = r) := fun h => hs (hr.trans h.symm)
          simp [shareOf, List.find?, hr, hr'r]
        · simp only [shareOf, List.find?, hr, decide_eq_true_eq] at *
          simp [hr, ih, shareOf]

theorem pollFold_shareOf (poll : RawPollItem) (L : List Nat) (out : List RespectShare)
    (r : PipelineRespectId) :
    shareOf (L.foldl (fun out i =>
        match firstOptionRespect (poll.options.getD i "") with
        | some r' => addShare out r' (poll.results.getD i 0)
        | none => out) out) r
    = shareOf out r +
      ((L.filter (fun i =>
          decide (firstOptionRespect (poll.options.getD i "") = some r))).map
        (fun i => poll.results.getD i 0)).sum := by
  induction L generalizing out with
  | nil => simp
  | cons i L' ih =>
      rw [List.foldl_cons, List.filter_cons]
      cases hi : firstOptionRespect (poll.options.getD i "") with
      | some r' =>
          by_cases hr : r' = r
          · subst hr
            rw [if_pos (by simp [hi])]
            rw [ih, shareOf_addShare, if_pos rfl]
            simp [add_assoc, add_comm]
          · rw [if_neg (by simp [hi, hr])]
            rw [ih, shareOf_addShare, if_neg hr]
            simp
      | none =>
          rw [if_neg (by simp [hi])]
          rw [ih]

theorem pollFold_nil_iff (poll : RawPollItem) (L : List Nat) (out : List RespectShare) :
    (L.foldl (fun out i =>
        match firstOptionRespect (poll.options.getD i "") with
        | some r' => addShare out r' (poll.results.getD i 0)
        | none => out) out) = [] ↔
      (out = [] ∧ ∀ i ∈ L, firstOptionRespect (poll.options.getD i "") = none) := by
  induction L generalizing out with
  | nil => simp
  | cons i L' ih =>
      rw [List.foldl_cons]
      cases hi : firstOptionRespect (poll.options.getD i "") with
      | some r' =>
          constructor
          · intro h
            exact absurd (ih _ |>.mp h).1 (addShare_ne_nil out r' _)
          · rintro ⟨_, hall⟩
            have := hall i (List.mem_cons_self _ _)
            rw [hi] at this
            exact absurd this (by simp)
      | none =>
          rw [ih]
          constructor
          · rintro ⟨hout, hall⟩
            refine ⟨hout, ?_⟩
            intro j hj
            rcases List.mem_cons.mp hj with rfl | hj
            · exact hi
            · exact hall j hj
          · rintro ⟨hout, hall⟩
            exact ⟨hout, fun j hj => hall j (List.mem_cons_of_mem _ hj)⟩

/-- C5 (amended): in mapPollToRespectShare each option is routed to the first pattern
that matches it, options matching no pattern contribute nothing, and only when no
option matches any pattern does the fixed default security_border entry with share 0.5
appear — so a framing's mapped share is the sum of result shares of the options whose
first matching pattern names it, and the sum of mapped shares equals the sum of result
shares over the matched options only (or 0.5 when none matched), not the whole poll. -/
theorem mapPoll_share_formula (poll : RawPollItem) (r : PipelineRespectId) :
    shareOf (mapPollToRespectShare poll) r =
      if ∀ i ∈ List.range poll.options.length,
          firstOptionRespect (poll.options.getD i "") = none then
        (if r = PipelineRespectId.security_border then 1/2 else 0)
      else
        (((List.range poll.options.length).filter
            (fun i => decide (firstOptionRespect (poll.options.getD i "") = some r))).map
          (fun i => poll.results.getD i 0)).sum := by
  unfold mapPollToRespectShare
  by_cases hall : ∀ i ∈ List.range poll.options.length,
      firstOptionRespect (poll.options.getD i "") = none
  · rw [if_pos hall]
    have hnil : ((List.range poll.options.length).foldl (fun out i =>
        match firstOptionRespect (poll.options.getD i "") with
        | some r' => addShare out r' (poll.results.getD i 0)
        | none => out) []) = [] := (pollFold_nil_iff poll _ []).mpr ⟨rfl, hall⟩
    rw [hnil]
    by_cases hr : r = PipelineRespectId.security_border
    · subst hr
      simp [shareOf, List.find?]
    · have : ¬(PipelineRespectId.security_border = r) := fun h => hr h.symm
      simp [shareOf, List.find?, hr, this]
  · rw [if_neg hall]
    have hne : ((List.range poll.options.length).foldl (fun out i =>
        match firstOptionRespect (poll.options.getD i "") with
        | some r' => addShare out r' (poll.results.getD i 0)
        | none => out) []) ≠ [] := by
      intro h
      exact hall ((pollFold_nil_iff poll _ []).mp h).2
    rw [if_neg (by simpa [List.isEmpty_iff] using hne)]
    have := pollFold_shareOf poll (List.range poll.options.length) [] r
    simpa [shareOf] using this

/-- C5 counterexample: for the poll with options "Support tougher measures" (0.6) and
"No opinion" (0.4), the unmatched second option is dropped: the mapped shares are just
security_border 0.6, summing to 0.6, while the poll's result shares sum to 1. -/
theorem mapPoll_drops_unmatched :
    mapPollToRespectShare exPollUnmatched =
      [RespectShare.mk PipelineRespectId.security_border (3/5)] ∧
    ((mapPollToRespectShare exPollUnmatched).map (·.share)).sum = 3/5 ∧
    exPollUnmatched.results.sum = 1 ∧
    ¬ ((3:ℚ)/5 = 1) := by
  have h1 : mapPollToRespectShare exPollUnmatched =
      [RespectShare.mk PipelineRespectId.security_border (3/5)] := by rfl
  refine ⟨h1, by rw [h1]; simp, ?_, by norm_num⟩
  show ([(3:ℚ)/5, 2/5]).sum = 1
  norm_num

/-! ## Classifier lemmas and claim C7 -/

theorem normalizeConfidence_bounds (s m : ℚ) :
    3/10 ≤ normalizeConfidence s m ∧ normalizeConfidence s m ≤ 95/100 := by
  unfold normalizeConfidence
  by_cases h : m ≤ 0
  · rw [if_pos h]
    norm_num
  · rw [if_neg h]
    exact ⟨le_min (by norm_num) (le_max_left _ _), min_le_left _ _⟩

theorem scoreSeedStep_id (tokens : List (List Char)) (textLower : List Char)
    (acc : ScoreEntry) (seed : String) :
    (scoreSeedStep tokens textLower acc seed).respect_id = acc.respect_id := by
  unfold scoreSeedStep
  by_cases h1 : (tokens.any (fun t =>
      containsSub t (lowerS seed) || containsSub (lowerS seed) t)) = true
  · by_cases h2 : containsSub textLower (lowerS seed) = true
    · simp [h1, h2]
    · simp [h1, h2]
  · by_cases h2 : containsSub textLower (lowerS seed) = true
    · simp [h1, h2]
    · simp [h1, h2]

theorem scoreRespect_id (tokens : List (List Char)) (textLower : List Char)
    (r : PipelineRespect) : (scoreRespect tokens textLower r).respect_id = r.id := by
  unfold scoreRespect
  have key : ∀ (seeds : List String) (acc : ScoreEntry),
      (seeds.foldl (scoreSeedStep tokens textLower) acc).respect_id = acc.respect_id := by
    intro seeds
    induction seeds with
    | nil => intro acc; rfl
    | cons s rest ih =>
        intro acc
        rw [List.foldl_cons, ih, scoreSeedStep_id]
  exact key r.keyword_seeds _

theorem scoreText_mem_catalog {t : String} {e : ScoreEntry} (h : e ∈ scoreText t) :
    e.respect_id ∈ PIPELINE_RESPECT_IDS := by
  unfold scoreText at h
  have h1 := mem_sortDesc.mp h
  have h2 := (List.mem_filter.mp h1).1
  rcases List.mem_map.mp h2 with ⟨r, hr, he⟩
  rw [← he, scoreRespect_id]
  exact List.mem_map.mpr ⟨r, hr, rfl⟩

theorem poll_map_catalog : ∀ pr ∈ POLL_RESPECT_MAP, pr.2 ∈ PIPELINE_RESPECT_IDS := by
  decide

/-- C7 (amended): every ClassifiedItem produced by the keyword classification path has
confidence within [0.3, 0.95] and a respect id from the static catalog; the clamp
formula clamp(score / max(topScore, 3), 0.3, 0.95) gives the confidence for
classifyMediaItem and for classifyPollItem's keyword-fallback branch (with topScore
the item's own top score); classifyPollItem's question-level pattern path instead uses
a fixed 0.65 and classifyMetricItem a fixed 0.7 whenever seeds match; the no-match
fallbacks are security_border (media, poll) and capacity_delivery (metric), at
confidence 0.5. -/
theorem classifier_confidence_catalog (s : String) (mi : RawMediaItem) (pli : RawPollItem)
    (mti : RawMetricItem) :
    (3/10 ≤ (classifyMediaItem s mi).confidence ∧
      (classifyMediaItem s mi).confidence ≤ 95/100 ∧
      (classifyMediaItem s mi).respect_id ∈ PIPELINE_RESPECT_IDS) ∧
    (3/10 ≤ (classifyPollItem s pli).confidence ∧
      (classifyPollItem s pli).confidence ≤ 95/100 ∧
      (classifyPollItem s pli).respect_id ∈ PIPELINE_RESPECT_IDS) ∧
    (3/10 ≤ (classifyMetricItem s mti).confidence ∧
      (classifyMetricItem s mti).confidence ≤ 95/100 ∧
      (classifyMetricItem s mti).respect_id ∈ PIPELINE_RESPECT_IDS) ∧
    (∀ top rest, scoreText (mediaTextOf mi) = top :: rest →
      (classifyMediaItem s mi).confidence = normalizeConfidence top.score top.score) ∧
    (scoreText (mediaTextOf mi) = [] →
      (classifyMediaItem s mi).respect_id = PipelineRespectId.security_border ∧
      (classifyMediaItem s mi).confidence = 1/2) ∧
    (∀ pr, POLL_RESPECT_MAP.find? (fun q => patternTest q.1 (pollTextOf pli)) = some pr →
      (classifyPollItem s pli).confidence = 65/100) ∧
    (∀ top rest, scoreText (metricTextOf mti) = top :: rest →
      (classifyMetricItem s mti).confidence = 7/10) ∧
    (scoreText (metricTextOf mti) = [] →
      (classifyMetricItem s mti).respect_id = PipelineRespectId.capacity_delivery ∧
      (classifyMetricItem s mti).confidence = 1/2) ∧
    (∀ top rest, POLL_RESPECT_MAP.find? (fun q => patternTest q.1 (pollTextOf pli)) = none →
      scoreText (pollTextOf pli) = top :: rest →
      (classifyPollItem s pli).confidence = normalizeConfidence top.score top.score) ∧
    (POLL_RESPECT_MAP.find? (fun q => patternTest q.1 (pollTextOf pli)) = none →
      scoreText (pollTextOf pli) = [] →
      (classifyPollItem s pli).respect_id = PipelineRespectId.security_border ∧
      (classifyPollItem s pli).confidence = 1/2) := by
  refine ⟨?_, ?_, ?_, ?_, ?_, ?_, ?_, ?_, ?_, ?_⟩
  · cases h : scoreText (mediaTextOf mi) with
    | nil =>
        simp only [classifyMediaItem, h]
        refine ⟨by norm_num, by norm_num, by decide⟩
    | cons top rest =>
        simp only [classifyMediaItem, h]
        refine ⟨(normalizeConfidence_bounds _ _).1, (normalizeConfidence_bounds _ _).2, ?_⟩
        exact scoreText_mem_catalog (h ▸ List.mem_cons_self top rest)
  · cases hp : POLL_RESPECT_MAP.find? (fun q => patternTest q.1 (pollTextOf pli)) with
    | some pr =>
        simp only [classifyPollItem, hp]
        refine ⟨by norm_num, by norm_num, ?_⟩
        exact poll_map_catalog pr (List.mem_of_find?_eq_some hp)
    | none =>
        cases h : scoreText (pollTextOf pli) with
        | nil =>
            simp only [classifyPollItem, hp, h]
            refine ⟨by norm_num, by norm_num, by decide⟩
        | cons top rest =>
            simp only [classifyPollItem, hp, h]
            refine ⟨(normalizeConfidence_bounds _ _).1, (normalizeConfidence_bounds _ _).2, ?_⟩
            exact scoreText_mem_catalog (h ▸ List.mem_cons_self top rest)
  · cases h : scoreText (metricTextOf mti) with
    | nil =>
        simp only [classifyMetricItem, h]
        refine ⟨by norm_num, by norm_num, by decide⟩
    | cons top rest =>
        simp only [classifyMetricItem, h]
        refine ⟨by norm_num, by norm_num, ?_⟩
        exact scoreText_mem_catalog (h ▸ List.mem_cons_self top rest)
  · intro top rest h
    simp only [classifyMediaItem, h]
  · intro h
    simp [classifyMediaItem, h]
  · intro pr hp
    simp only [classifyPollItem, hp]
  · intro top rest h
    simp only [classifyMetricItem, h]
  · intro h
    simp [classifyMetricItem, h]
  · intro top rest hp h
    simp only [classifyPollItem, hp, h]
  · intro hp h
    simp [classifyPollItem, hp, h]

/-- C7 counterexample: the metric labelled "stability" matches the stability seed with
top score 1.5, yet classifyMetricItem reports confidence 0.7, while the claimed clamp
formula clamp(1.5 / max(1.5, 3), 0.3, 0.95) evaluates to 0.5. -/
theorem metric_confidence_not_clamp :
    scoreText (metricTextOf exMetricStability) =
      [⟨PipelineRespectId.stability_risk, 0 + 1 + 1/2, ["stability"]⟩] ∧
    (classifyMetricItem "small_boats" exMetricStability).confidence = 7/10 ∧
    normalizeConfidence (0 + 1 + 1/2) (0 + 1 + 1/2) = 1/2 ∧
    ¬ ((7:ℚ)/10 = 1/2) := by
  have hmap : PIPELINE_RESPECTS.map (scoreRespect (tokenize (metricTextOf exMetricStability))
      (lowerS (metricTextOf exMetricStability))) =
    [ ⟨.security_border, 0, []⟩, ⟨.humanitarian, 0, []⟩, ⟨.rule_of_law, 0, []⟩
    , ⟨.sovereignty_control, 0, []⟩, ⟨.capacity_delivery, 0, []⟩, ⟨.economy_prosperity, 0, []⟩
    , ⟨.fairness_distribution, 0, []⟩, ⟨.stability_risk, 0 + 1 + 1/2, ["stability"]⟩
    , ⟨.environment_sustainability, 0, []⟩, ⟨.national_interest_global, 0, []⟩ ] := by rfl
  have hfilter : ([ ⟨.security_border, 0, []⟩, ⟨.humanitarian, 0, []⟩, ⟨.rule_of_law, 0, []⟩
    , ⟨.sovereignty_control, 0, []⟩, ⟨.capacity_delivery, 0, []⟩, ⟨.economy_prosperity, 0, []⟩
    , ⟨.fairness_distribution, 0, []⟩, ⟨.stability_risk, 0 + 1 + 1/2, ["stability"]⟩
    , ⟨.environment_sustainability, 0, []⟩
    , ⟨.national_interest_global, 0, []⟩ ] : List ScoreEntry).filter
      (fun s => decide (s.score > 0)) =
      [⟨PipelineRespectId.stability_risk, 0 + 1 + 1/2, ["stability"]⟩] := by
    norm_num [List.filter_cons, List.filter_nil]
  have hscore : scoreText (metricTextOf exMetricStability) =
      [⟨PipelineRespectId.stability_risk, 0 + 1 + 1/2, ["stability"]⟩] := by
    unfold scoreText
    rw [hmap, hfilter]
    rfl
  refine ⟨hscore, ?_, ?_, by norm_num⟩
  · simp only [classifyMetricItem, hscore]
  · norm_num [normalizeConfidence, max_def, min_def]

/-! ## LLM-fallback lemmas and claim C3 -/

theorem classifyMediaItem_item_id (s : String) (it : RawMediaItem) :
    (classifyMediaItem s it).item_id = it.id := by
  cases h : scoreText (mediaTextOf it) with
  | nil => simp [classifyMediaItem, h]
  | cons top rest => simp [classifyMediaItem, h]

theorem filter_eq_single_of_nodup {α : Type} (f : α → String) :
    ∀ (l : List α) (m : α), (l.map f).Nodup → m ∈ l →
      l.filter (fun x => decide (f x = f m)) = [m] := by
  intro l
  induction l with
  | nil =>
      intro m _ hm
      cases hm
  | cons x xs ih =>
      intro m hnd hm
      rw [List.map_cons, List.nodup_cons] at hnd
      obtain ⟨hfx, hnd'⟩ := hnd
      rcases List.mem_cons.mp hm with rfl | hm
      · rw [List.filter_cons, if_pos (by simp)]
        have hrest : xs.filter (fun x => decide (f x = f m)) = [] := by
          rw [List.filter_eq_nil_iff]
          intro a ha
          simp only [decide_eq_true_eq]
          intro hfa
          exact hfx (hfa ▸ List.mem_map_of_mem f ha)
        rw [hrest]
      · have hne : ¬(f x = f m) := by
          intro he
          exact hfx (he ▸ List.mem_map_of_mem f hm)
        rw [List.filter_cons, if_neg (by simpa using hne)]
        exact ih m hnd' hm

theorem length_filter_enum_map_one {β : Type} (g : Nat × RawMediaItem → β)
    (gid : β → String) (hg : ∀ q, gid (g q) = q.2.id)
    (batch : List RawMediaItem) (m : RawMediaItem)
    (hnd : (batch.map (·.id)).Nodup) (hm : m ∈ batch) :
    ((batch.enum.map g).filter (fun c => decide (gid c = m.id))).length = 1 := by
  rw [List.filter_map]
  rw [List.length_map]
  have hpred : ((fun c => decide (gid c = m.id)) ∘ g) =
      (fun a : Nat × RawMediaItem => decide (a.2.id = m.id)) := by
    funext a
    simp only [Function.comp, hg]
  rw [hpred]
  have hfin : batch.filter (fun x => decide (x.id = m.id)) = [m] :=
    filter_eq_single_of_nodup (fun x => x.id) batch m hnd hm
  calc (batch.enum.filter (fun a : Nat × RawMediaItem => decide (a.2.id = m.id))).length
      = ((batch.enum.filter (fun a : Nat × RawMediaItem =>
          decide (a.2.id = m.id))).map Prod.snd).length := (List.length_map _ _).symm
    _ = ((batch.enum.map Prod.snd).filter (fun x => decide (x.id = m.id))).length := by
        rw [List.filter_map]
        rfl
    _ = (batch.filter (fun x => decide (x.id = m.id))).length := by
        rw [List.enum_map_snd]
    _ = 1 := by rw [hfin]; rfl

/-- C3 (amended): with an oracle configured, the keyword fallback runs only when the
oracle call throws — each batch item then gets exactly its keyword ClassifiedItem; a
response that parses yields exactly one (LLM) ClassifiedItem per batch item; but a
malformed (unparseable) response returns the empty classification list, so the items
of the batch receive no ClassifiedItem at all and are not routed to the keyword path. -/
theorem llm_fallback_behaviour (s : String) (batch : List RawMediaItem)
    (hne : batch ≠ []) (hnd : (batch.map (·.id)).Nodup) :
    (∀ m ∈ batch,
      (refreshClassifyMedia s batch true .transportThrow).filter
        (fun c => decide (c.item_id = m.id)) = [classifyMediaItem s m]) ∧
    (∀ cls, ∀ m ∈ batch,
      ((refreshClassifyMedia s batch true (.parsed cls)).filter
        (fun c => decide (c.item_id = m.id))).length = 1) ∧
    refreshClassifyMedia s batch true .unparseable = [] := by
  have hlen : batch.length > 0 := List.length_pos.mpr hne
  refine ⟨?_, ?_, ?_⟩
  · intro m hm
    have hr : refreshClassifyMedia s batch true .transportThrow =
        batch.map (classifyMediaItem s) := by
      unfold refreshClassifyMedia
      rw [if_pos hlen]
      rfl
    rw [hr, List.filter_map]
    have hpred : ((fun c => decide (c.item_id = m.id)) ∘ classifyMediaItem s) =
        (fun x : RawMediaItem => decide (x.id = m.id)) := by
      funext x
      simp only [Function.comp, classifyMediaItem_item_id]
    rw [hpred, filter_eq_single_of_nodup (fun x => x.id) batch m hnd hm]
    rfl
  · intro cls m hm
    have hr : refreshClassifyMedia s batch true (.parsed cls) =
        batch.enum.map (fun im =>
          let respect_id :=
            match jsMapOfEntries (cls.getD []) im.1 with
            | some str => (parseRespectId str).getD .security_border
            | none => .security_border
          { item_type := .media, subject_id := s, item_id := im.2.id
          , respect_id := respect_id, confidence := 8/10
          , rationale := ["LLM classification"], extracted_phrases := [] }) := by
      unfold refreshClassifyMedia
      rw [if_pos hlen]
      rfl
    rw [hr]
    exact length_filter_enum_map_one _ (fun c : ClassifiedItem => c.item_id) (fun q => rfl)
      batch m hnd hm
  · unfold refreshClassifyMedia
    rw [if_pos hlen]
    rfl

/-- Witness for the C3 amended theorem at a singleton batch: a thrown oracle call
yields exactly the keyword classification of the item, and an unparseable response
yields no classifications at all. -/
theorem llm_fallback_behaviour_witness :
    (refreshClassifyMedia "small_boats" [exMediaItemLLM] true .transportThrow).filter
      (fun c => decide (c.item_id = exMediaItemLLM.id)) =
      [classifyMediaItem "small_boats" exMediaItemLLM] ∧
    refreshClassifyMedia "small_boats" [exMediaItemLLM] true .unparseable = [] := by
  have h := llm_fallback_behaviour "small_boats" [exMediaItemLLM] (by decide) (by decide)
  exact ⟨h.1 exMediaItemLLM (List.mem_cons_self _ _), h.2.2⟩

/-- C3 counterexample: a one-item batch with an unparseable oracle response produces
zero ClassifiedItems — the item is not classified by the keyword path, contradicting
the claim that every item of the affected batch receives exactly one ClassifiedItem. -/
theorem llm_unparseable_drops_batch :
    refreshClassifyMedia "small_boats" [exMediaItemLLM] true .unparseable = [] ∧
    ([exMediaItemLLM] : List RawMediaItem).length = 1 := by
  exact ⟨rfl, rfl⟩

/-! ## Media aggregation lemmas and claims C8, C10 -/

theorem aggregate_media_framing_shares (now : ℚ) (subject : String)
    (classified : List ClassifiedItem) (rawMedia : List RawMediaItem) (wd : ℚ) :
    (aggregate_media_framing now subject classified rawMedia wd).shares =
      sortDesc (·.share)
        ((mediaByRespect now
            (classified.filter (fun c => decide (c.item_type = ItemType.media))) rawMedia).map
          (fun p => RespectShare.mk p.1 (p.2 /
            jsOrOne (((mediaByRespect now
              (classified.filter (fun c => decide (c.item_type = ItemType.media)))
              rawMedia).map (·.2)).sum)))) := rfl

theorem aggregate_media_framing_dominant (now : ℚ) (subject : String)
    (classified : List ClassifiedItem) (rawMedia : List RawMediaItem) (wd : ℚ) :
    (aggregate_media_framing now subject classified rawMedia wd).dominant =
      ((aggregate_media_framing now subject classified rawMedia wd).shares).headD
        (RespectShare.mk .security_border (1/2)) := rfl

theorem aggregate_public_polling_prior (subject : String) (classified : List ClassifiedItem)
    (rawPolls : List RawPollItem) (wm : ℚ) :
    (aggregate_public_polling subject classified rawPolls wm).public_prior =
      (sortDesc (·.share)
        ((pollingByRespect
            (classified.filter (fun c => decide (c.item_type = ItemType.poll))) rawPolls).map
          (fun p => RespectShare.mk p.1 (p.2 /
            jsOrOne (((pollingByRespect
              (classified.filter (fun c => decide (c.item_type = ItemType.poll)))
              rawPolls).map (·.2)).sum))))).headD
        (RespectShare.mk .security_border (1/2)) := rfl

theorem foldl_jsMapAdd_sum (w : ClassifiedItem → ℚ) (L : List ClassifiedItem) :
    ∀ (m : List (PipelineRespectId × ℚ)),
      ((L.foldl (fun m c => jsMapAdd m c.respect_id (w c)) m).map (·.2)).sum =
        (m.map (·.2)).sum + (L.map w).sum := by
  induction L with
  | nil => intro m; simp
  | cons c L' ih =>
      intro m
      rw [List.foldl_cons, ih, jsMapAdd_sum]
      rw [List.map_cons, List.sum_cons]
      ring

theorem mediaByRespect_sum (now : ℚ) (MC : List ClassifiedItem) (rawMedia : List RawMediaItem) :
    ((mediaByRespect now MC rawMedia).map (·.2)).sum =
      (MC.map (mediaWeightOf now rawMedia)).sum := by
  unfold mediaByRespect
  rw [foldl_jsMapAdd_sum]
  simp

theorem recencyDecay_pos (d : ℚ) : 0 < recencyDecay d :=
  lt_of_lt_of_le (by norm_num) (le_max_left _ _)

theorem mediaWeightOf_pos (now : ℚ) (rawMedia : List RawMediaItem) (c : ClassifiedItem)
    (h : 0 < c.confidence) : 0 < mediaWeightOf now rawMedia c := by
  unfold mediaWeightOf
  exact mul_pos (recencyDecay_pos _) h

theorem sum_map_share_div (l : List (PipelineRespectId × ℚ)) (t : ℚ) :
    ((l.map (fun p => RespectShare.mk p.1 (p.2 / t))).map (·.share)).sum =
      (l.map (·.2)).sum / t := by
  induction l with
  | nil => simp
  | cons p rest ih =>
      simp only [List.map_cons, List.sum_cons, ih]
      rw [add_div]

/-- C8: whenever at least one media item was classified (all keyword/LLM/pre-labelled
confidences being at least 0.3), the media aggregate's framing shares sum to exactly 1
(so certainly within 1e-6 of 1.0); with zero classified media items the shares list is
empty, the denominator being floored at 1 instead of 0. -/
theorem media_shares_sum_one (now : ℚ) (subject : String) (classified : List ClassifiedItem)
    (rawMedia : List RawMediaItem) (wd : ℚ)
    (hconf : ∀ c ∈ classified, c.item_type = ItemType.media → 3/10 ≤ c.confidence) :
    (classified.filter (fun c => decide (c.item_type = ItemType.media)) ≠ [] →
      (((aggregate_media_framing now subject classified rawMedia wd).shares.map
        (·.share)).sum = 1)) ∧
    (classified.filter (fun c => decide (c.item_type = ItemType.media)) = [] →
      (aggregate_media_framing now subject classified rawMedia wd).shares = []) := by
  constructor
  · intro hne
    have hpos : 0 < ((classified.filter (fun c => decide (c.item_type = ItemType.media))).map
        (mediaWeightOf now rawMedia)).sum := by
      apply List.sum_pos
      · intro w hw
        rcases List.mem_map.mp hw with ⟨c, hc, rfl⟩
        obtain ⟨hc1, hc2⟩ := List.mem_filter.mp hc
        have h3 : 3/10 ≤ c.confidence := hconf c hc1 (by simpa using hc2)
        exact mediaWeightOf_pos now rawMedia c (lt_of_lt_of_le (by norm_num) h3)
      · simp [hne]
    have hS : ((mediaByRespect now
        (classified.filter (fun c => decide (c.item_type = ItemType.media)))
        rawMedia).map (·.2)).sum =
        ((classified.filter (fun c => decide (c.item_type = ItemType.media))).map
          (mediaWeightOf now rawMedia)).sum := mediaByRespect_sum _ _ _
    have hSne : ((mediaByRespect now
        (classified.filter (fun c => decide (c.item_type = ItemType.media)))
        rawMedia).map (·.2)).sum ≠ 0 := by
      rw [hS]
      exact ne_of_gt hpos
    rw [aggregate_media_framing_shares]
    have hperm : ((sortDesc (·.share)
        ((mediaByRespect now
            (classified.filter (fun c => decide (c.item_type = ItemType.media))) rawMedia).map
          (fun p => RespectShare.mk p.1 (p.2 /
            jsOrOne (((mediaByRespect now
              (classified.filter (fun c => decide (c.item_type = ItemType.media)))
              rawMedia).map (·.2)).sum))))).map (·.share)).sum =
        (((mediaByRespect now
            (classified.filter (fun c => decide (c.item_type = ItemType.media))) rawMedia).map
          (fun p => RespectShare.mk p.1 (p.2 /
            jsOrOne (((mediaByRespect now
              (classified.filter (fun c => decide (c.item_type = ItemType.media)))
              rawMedia).map (·.2)).sum)))).map (·.share)).sum :=
      ((sortDesc_perm _ _).map _).sum_eq
    rw [hperm, sum_map_share_div, jsOrOne, if_neg hSne]
    exact div_self hSne
  · intro hz
    rw [aggregate_media_framing_shares, hz]
    rfl

/-- Witness for C8: on six classified media items with confidences 0.50–0.55 the
aggregate's shares sum to exactly 1. -/
theorem media_shares_sum_one_witness :
    (((aggregate_media_framing 0 "small_boats" exClassSix exRawSix 14).shares.map
      (·.share)).sum = 1) :=
  (media_shares_sum_one 0 "small_boats" exClassSix exRawSix 14
    (by intro c hc h; fin_cases hc <;> norm_num)).1 (by decide)

/-- C10: with zero classified media items aggregate_media_framing still reports the
fixed dominant security_border at share 0.5, and with zero classified polls
aggregate_public_polling reports public_prior security_border at share 0.5. -/
theorem empty_input_defaults (now : ℚ) (subject : String) (classified : List ClassifiedItem)
    (rawMedia : List RawMediaItem) (wd : ℚ) (rawPolls : List RawPollItem) (wm : ℚ) :
    (classified.filter (fun c => decide (c.item_type = ItemType.media)) = [] →
      (aggregate_media_framing now subject classified rawMedia wd).dominant =
        RespectShare.mk .security_border (1/2)) ∧
    (classified.filter (fun c => decide (c.item_type = ItemType.poll)) = [] →
      (aggregate_public_polling subject classified rawPolls wm).public_prior =
        RespectShare.mk .security_border (1/2)) := by
  constructor
  · intro hz
    rw [aggregate_media_framing_dominant, aggregate_media_framing_shares, hz]
    rfl
  · intro hz
    rw [aggregate_public_polling_prior, hz]
    rfl

/-- Witness for C10 at empty inputs. -/
theorem empty_input_defaults_witness :
    (aggregate_media_framing 0 "small_boats" [] [] 14).dominant =
      RespectShare.mk .security_border (1/2) ∧
    (aggregate_public_polling "small_boats" [] [] 6).public_prior =
      RespectShare.mk .security_border (1/2) :=
  ⟨(empty_input_defaults 0 "small_boats" [] [] 14 [] 6).1 rfl,
   (empty_input_defaults 0 "small_boats" [] [] 14 [] 6).2 rfl⟩

/-! ## Exemplar lemmas and claim C6 -/

theorem aggregate_media_framing_exemplars (now : ℚ) (subject : String)
    (classified : List ClassifiedItem) (rawMedia : List RawMediaItem) (wd : ℚ) :
    (aggregate_media_framing now subject classified rawMedia wd).exemplars =
      (((((sortDesc (·.2) (mediaItemWeights now
          (classified.filter (fun c => decide (c.item_type = ItemType.media)))
          rawMedia)).take 5).filterMap
        (fun iw => rawMedia.find? (fun x => decide (x.id = iw.1)))).take 6).map
        (fun m =>
          let c := (classified.filter
            (fun c => decide (c.item_type = ItemType.media))).reverse.find?
              (fun c => decide (c.item_id = m.id))
          { source_id := m.id
          , outlet := m.outlet
          , title := m.title
          , url := m.url
          , published_at_ms := m.published_at_ms
          , respect_id := c.map (·.respect_id)
          , confidence := c.map (·.confidence) : MediaExemplar })) := rfl

theorem filterMap_find_spec (rawMedia : List RawMediaItem) :
    ∀ (L : List (String × ℚ)),
      (∀ p ∈ L, (rawMedia.find? (fun x => decide (x.id = p.1))).isSome) →
      ((L.filterMap (fun iw => rawMedia.find? (fun x => decide (x.id = iw.1)))).map (·.id)
          = L.map (·.1) ∧
        (L.filterMap (fun iw => rawMedia.find? (fun x => decide (x.id = iw.1)))).length
          = L.length) := by
  intro L
  induction L with
  | nil => intro _; simp
  | cons p L' ih =>
      intro hall
      have hp := hall p (List.mem_cons_self _ _)
      rcases Option.isSome_iff_exists.mp hp with ⟨m, hm⟩
      have hid : m.id = p.1 := by
        have := List.find?_some hm
        simpa using this
      have hrest := ih (fun q hq => hall q (List.mem_cons_of_mem _ hq))
      rw [List.filterMap_cons, hm]
      constructor
      · rw [List.map_cons, List.map_cons, hrest.1, hid]
      · rw [List.length_cons, List.length_cons, hrest.2]

theorem mediaItemWeights_fst (now : ℚ) (MC : List ClassifiedItem)
    (rawMedia : List RawMediaItem) :
    (mediaItemWeights now MC rawMedia).map (·.1) = MC.map (·.item_id) := by
  unfold mediaItemWeights
  rw [List.map_map]
  rfl

/-- C6 (amended): when at least 5 classified media items (with distinct ids) have
matching raw items, the exemplars list holds exactly 5 entries — not 6 — and they are
the highest-weight items: every exemplar carries the outlet, title, URL, published
timestamp, framing and confidence of its item, and no non-exemplar item outweighs any
exemplar. -/
theorem exemplars_top_five (now : ℚ) (subject : String) (classified : List ClassifiedItem)
    (rawMedia : List RawMediaItem) (wd : ℚ)
    (hnd : ((classified.filter (fun c => decide (c.item_type = ItemType.media))).map
      (·.item_id)).Nodup)
    (hraw : ∀ c ∈ classified.filter (fun c => decide (c.item_type = ItemType.media)),
      (rawMedia.find? (fun x => decide (x.id = c.item_id))).isSome)
    (hlen : 5 ≤ (classified.filter (fun c => decide (c.item_type = ItemType.media))).length) :
    (aggregate_media_framing now subject classified rawMedia wd).exemplars.length = 5 ∧
    (∀ e ∈ (aggregate_media_framing now subject classified rawMedia wd).exemplars,
      ∃ m ∈ rawMedia, m.id = e.source_id ∧ e.outlet = m.outlet ∧ e.title = m.title ∧
        e.url = m.url ∧ e.published_at_ms = m.published_at_ms ∧
        ∃ c ∈ classified.filter (fun c => decide (c.item_type = ItemType.media)),
          c.item_id = m.id ∧ e.respect_id = some c.respect_id ∧
          e.confidence = some c.confidence) ∧
    (∀ p ∈ mediaItemWeights now
        (classified.filter (fun c => decide (c.item_type = ItemType.media))) rawMedia,
      ∀ q ∈ mediaItemWeights now
        (classified.filter (fun c => decide (c.item_type = ItemType.media))) rawMedia,
      p.1 ∈ (aggregate_media_framing now subject classified rawMedia wd).exemplars.map
        (·.source_id) →
      q.1 ∉ (aggregate_media_framing now subject classified rawMedia wd).exemplars.map
        (·.source_id) →
      q.2 ≤ p.2) := by
  simp only [aggregate_media_framing_exemplars]
  set MC := classified.filter (fun c => decide (c.item_type = ItemType.media)) with hMCdef
  set IW := mediaItemWeights now MC rawMedia with hIWdef
  set SW := sortDesc (·.2) IW with hSWdef
  set T5 := SW.take 5 with hT5def
  set CR := T5.filterMap (fun iw => rawMedia.find? (fun x => decide (x.id = iw.1))) with hCRdef
  have hIWids : IW.map (·.1) = MC.map (·.item_id) := mediaItemWeights_fst now MC rawMedia
  have hIWlen : IW.length = MC.length := by
    rw [hIWdef]
    unfold mediaItemWeights
    rw [List.length_map]
  have hSWperm : SW.Perm IW := sortDesc_perm _ _
  have hSWlen : SW.length = MC.length := by rw [hSWperm.length_eq, hIWlen]
  have hT5some : ∀ p ∈ T5, (rawMedia.find? (fun x => decide (x.id = p.1))).isSome := by
    intro p hp
    have hpIW : p ∈ IW := hSWperm.mem_iff.mp ((List.take_sublist 5 SW).subset hp)
    rw [hIWdef] at hpIW
    unfold mediaItemWeights at hpIW
    rcases List.mem_map.mp hpIW with ⟨c, hc, hfc⟩
    have hp1 : p.1 = c.item_id := by rw [← hfc]
    rw [hp1]
    exact hraw c hc
  have hspec := filterMap_find_spec rawMedia T5 hT5some
  have hT5len : T5.length = 5 := by
    rw [hT5def, List.length_take, hSWlen]
    exact min_eq_left hlen
  have hCRlen : CR.length = 5 := by rw [hCRdef, hspec.2, hT5len]
  have hCR6 : CR.take 6 = CR := List.take_of_length_le (by rw [hCRlen]; norm_num)
  rw [hCR6]
  have hexids : (CR.map (fun m =>
      { source_id := m.id
      , outlet := m.outlet
      , title := m.title
      , url := m.url
      , published_at_ms := m.published_at_ms
      , respect_id := (MC.reverse.find? (fun c => decide (c.item_id = m.id))).map (·.respect_id)
      , confidence := (MC.reverse.find? (fun c => decide (c.item_id = m.id))).map
          (·.confidence) : MediaExemplar })).map (·.source_id) = T5.map (·.1) := by
    rw [List.map_map]
    exact hspec.1
  refine ⟨?_, ?_, ?_⟩
  · rw [List.length_map, hCRlen]
  · intro e he
    rcases List.mem_map.mp he with ⟨m, hmCR, rfl⟩
    rcases List.mem_filterMap.mp hmCR with ⟨iw, hiwT5, hfind⟩
    have hmraw : m ∈ rawMedia := List.mem_of_find?_eq_some hfind
    have hmid : m.id = iw.1 := by simpa using List.find?_some hfind
    have hidin : m.id ∈ MC.map (·.item_id) := by
      rw [hmid, ← hIWids]
      exact List.mem_map_of_mem _ (hSWperm.mem_iff.mp ((List.take_sublist 5 SW).subset hiwT5))
    rcases List.mem_map.mp hidin with ⟨c0, hc0, hc0id⟩
    have hrevsome : ((MC.reverse).find? (fun c => decide (c.item_id = m.id))).isSome := by
      rw [List.find?_isSome]
      exact ⟨c0, List.mem_reverse.mpr hc0, by simp [hc0id]⟩
    rcases Option.isSome_iff_exists.mp hrevsome with ⟨c1, hc1⟩
    have hc1mem : c1 ∈ MC := List.mem_reverse.mp (List.mem_of_find?_eq_some hc1)
    have hc1id : c1.item_id = m.id := by simpa using List.find?_some hc1
    refine ⟨m, hmraw, rfl, rfl, rfl, rfl, rfl, c1, hc1mem, hc1id, ?_, ?_⟩
    · show (((MC.reverse).find? (fun c => decide (c.item_id = m.id))).map (·.respect_id)) =
        some c1.respect_id
      rw [hc1]
      rfl
    · show (((MC.reverse).find? (fun c => decide (c.item_id = m.id))).map (·.confidence)) =
        some c1.confidence
      rw [hc1]
      rfl
  · intro p hp q hq hpin hqout
    rw [hexids] at hpin hqout
    have hpSW : p ∈ SW := hSWperm.mem_iff.mpr hp
    rcases List.mem_map.mp hpin with ⟨p', hp'T5, hp'id⟩
    have hp'SW : p' ∈ SW := (List.take_sublist 5 SW).subset hp'T5
    have hSWnodup : (SW.map (·.1)).Nodup := by
      rw [(hSWperm.map (·.1)).nodup_iff, hIWids]
      exact hnd
    have hpp' : p' = p := List.inj_on_of_nodup_map hSWnodup hp'SW hpSW hp'id
    have hqSW : q ∈ SW := hSWperm.mem_iff.mpr hq
    have hqT5 : q ∉ T5 := by
      intro hmem
      exact hqout (List.mem_map_of_mem _ hmem)
    have hpair : SW.Pairwise (fun a b => b.2 ≤ a.2) := by
      rw [hSWdef]
      exact sortDesc_pairwise _ _
    have hsplit : T5 ++ SW.drop 5 = SW := by
      rw [hT5def]
      exact List.take_append_drop 5 SW
    rw [← hsplit] at hpair hqSW
    rcases List.mem_append.mp hqSW with hq1 | hq2
    · exact absurd hq1 hqT5
    · have hle := (List.pairwise_append.mp hpair).2.2 p' hp'T5 q hq2
      rw [hpp'] at hle
      exact hle

theorem exemplars_length_five_aux (now : ℚ) (subject : String)
    (classified : List ClassifiedItem) (rawMedia : List RawMediaItem) (wd : ℚ)
    (hraw : ∀ c ∈ classified.filter (fun c => decide (c.item_type = ItemType.media)),
      (rawMedia.find? (fun x => decide (x.id = c.item_id))).isSome)
    (hlen : 5 ≤ (classified.filter (fun c => decide (c.item_type = ItemType.media))).length) :
    (aggregate_media_framing now subject classified rawMedia wd).exemplars.length = 5 := by
  rw [aggregate_media_framing_exemplars, List.length_map]
  set MC := classified.filter (fun c => decide (c.item_type = ItemType.media)) with hMCdef
  set IW := mediaItemWeights now MC rawMedia with hIWdef
  set SW := sortDesc (·.2) IW with hSWdef
  set T5 := SW.take 5 with hT5def
  have hIWlen : IW.length = MC.length := by
    rw [hIWdef]
    unfold mediaItemWeights
    rw [List.length_map]
  have hSWperm : SW.Perm IW := sortDesc_perm _ _
  have hSWlen : SW.length = MC.length := by rw [hSWperm.length_eq, hIWlen]
  have hT5some : ∀ p ∈ T5, (rawMedia.find? (fun x => decide (x.id = p.1))).isSome := by
    intro p hp
    have hpIW : p ∈ IW := hSWperm.mem_iff.mp ((List.take_sublist 5 SW).subset hp)
    rw [hIWdef] at hpIW
    unfold mediaItemWeights at hpIW
    rcases List.mem_map.mp hpIW with ⟨c, hc, hfc⟩
    have hp1 : p.1 = c.item_id := by rw [← hfc]
    rw [hp1]
    exact hraw c hc
  have hspec := filterMap_find_spec rawMedia T5 hT5some
  have hT5len : T5.length = 5 := by
    rw [hT5def, List.length_take, hSWlen]
    exact min_eq_left hlen
  have hCRlen : (T5.filterMap
      (fun iw => rawMedia.find? (fun x => decide (x.id = iw.1)))).length = 5 := by
    rw [hspec.2, hT5len]
  rw [List.take_of_length_le (by rw [hCRlen]; norm_num), hCRlen]

/-- Witness for C6: on six classified media items with matching raw items, the
exemplars list produced by the aggregator has exactly 5 entries. -/
theorem exemplars_top_five_witness :
    (aggregate_media_framing 0 "small_boats" exClassSix exRawSix 14).exemplars.length = 5 :=
  (exemplars_top_five 0 "small_boats" exClassSix exRawSix 14 (by decide) (by decide)
    (by decide)).1

/-- C6 counterexample: six classified media items, all with matching raw items, yield
an exemplars list of 5 entries — not the claimed 6. -/
theorem exemplars_not_six :
    exClassSix.length = 6 ∧
    (∀ c ∈ exClassSix, c.item_type = ItemType.media ∧
      (exRawSix.find? (fun x => decide (x.id = c.item_id))).isSome) ∧
    (aggregate_media_framing 0 "small_boats" exClassSix exRawSix 14).exemplars.length = 5 ∧
    ¬ (5 = 6) := by
  refine ⟨by decide, by decide, ?_, by decide⟩
  exact exemplars_length_five_aux 0 "small_boats" exClassSix exRawSix 14 (by decide) (by decide)

/-- Witness for the C5 amended formula at the concrete poll: security_border receives
exactly the matched option's share 0.6. -/
theorem mapPoll_share_formula_witness :
    shareOf (mapPollToRespectShare exPollUnmatched) PipelineRespectId.security_border =
      3/5 := by
  have hcond : ¬ (∀ i ∈ List.range exPollUnmatched.options.length,
      firstOptionRespect (exPollUnmatched.options.getD i "") = none) := by decide
  rw [mapPoll_share_formula exPollUnmatched PipelineRespectId.security_border, if_neg hcond]
  have hfilter : (List.range exPollUnmatched.options.length).filter
      (fun i => decide (firstOptionRespect (exPollUnmatched.options.getD i "") =
        some PipelineRespectId.security_border)) = [0] := by decide
  rw [hfilter]
  simp only [List.map_cons, List.map_nil, List.sum_cons, List.sum_nil, add_zero]
  rfl

/-- Witness for the C7 amended theorem at concrete items: the metric classifier's
confidence lies in [0.3, 0.95] and the media classifier's framing is in the catalog. -/
theorem classifier_confidence_catalog_witness :
    3/10 ≤ (classifyMetricItem "small_boats" exMetricStability).confidence ∧
    (classifyMetricItem "small_boats" exMetricStability).confidence ≤ 95/100 ∧
    (classifyMediaItem "small_boats" exMediaItemLLM).respect_id ∈ PIPELINE_RESPECT_IDS := by
  have h := classifier_confidence_catalog "small_boats" exMediaItemLLM exPollUnmatched
    exMetricStability
  exact ⟨h.2.2.1.1, h.2.2.1.2.1, h.1.2.2⟩

end Sophist
